import Mathlib

/-!
Verification of the GDB-based DAP server
(`deployments/docker/runtimes/rust-gdb-dap-server.py`).

The development shallowly embeds the parts of the program the claims are
about:

* the wire codec: `send_message` frames a JSON body with a
  `Content-Length: <n>\r\n\r\n` header (`json.dumps` is modelled by
  `dumps`, with the default `ensure_ascii=True` escaping, so the body is
  pure ASCII and character count equals UTF-8 byte count);
* the incoming-frame loop of `handle_client` (`tryFrame` / `drainFrames` /
  `runClient`), including `json.loads` modelled by `loads`;
* the outbound sequence counter and `send_response` / `send_event` /
  `send_message`;
* `handle_setBreakpoints`, `handle_launch`, `handle_continue` (with a
  small interleaving semantics for the spawned watcher thread) and
  `_wait_for_stop` (as `wait_for_stop`).

JSON numbers are modelled as integers (`Int`): the DAP messages this
server builds and consumes carry only integers, strings, booleans, nulls,
arrays and objects; floating point is outside the embedding.
-/

/-- A JSON value, as produced by Python's `json` module on the message
dictionaries this server exchanges.  Numbers are integers (see the file
comment); objects are key/value lists in insertion order, which is the
order `json.dumps` serializes a `dict`. -/
inductive JVal where
  | null : JVal
  | bool : Bool → JVal
  | num : Int → JVal
  | str : String → JVal
  | arr : List JVal → JVal
  | obj : List (String × JVal) → JVal

/-- Decimal digit character for `n < 10` (`chr(48 + n)`). -/
def digitChar (n : Nat) : Char := Char.ofNat (48 + n)

/-- Decimal digits of `n`, most significant first, with explicit fuel so
the definition is structural (and so reduces inside `decide`/`rfl`).
`natChars` supplies fuel `n + 1`, which `natCharsAux_eq` shows is always
enough. -/
def natCharsAux : Nat → Nat → List Char
  | 0, _ => []
  | fuel + 1, n =>
      if n < 10 then [digitChar n] else natCharsAux fuel (n / 10) ++ [digitChar (n % 10)]

/-- The decimal digits of `n`, most significant first: Python's `str(n)`
for a non-negative `int`. -/
def natChars (n : Nat) : List Char := natCharsAux (n + 1) n

/-- Python's `str(i)` for an `int`: optional minus sign, then digits. -/
def intChars (i : Int) : List Char :=
  (if i < 0 then ['-'] else []) ++ natChars i.natAbs

/-- Lower-case hexadecimal digit character for `n < 16`. -/
def hexDigitChar (n : Nat) : Char :=
  if n < 10 then Char.ofNat (48 + n) else Char.ofNat (87 + n)

/-- Four lower-case hex digits of `n < 0x10000`: the `XXXX` of a Python
`\uXXXX` escape. -/
def hex4Chars (n : Nat) : List Char :=
  [hexDigitChar (n / 4096 % 16), hexDigitChar (n / 256 % 16),
   hexDigitChar (n / 16 % 16), hexDigitChar (n % 16)]

/-- One character of a JSON string as `json.dumps` (default
`ensure_ascii=True`) emits it: the two-character escapes for `"`, `\`,
backspace, form feed, newline, carriage return and tab; `\uXXXX` for the
other control characters and for everything above `~` (0x7e); printable
ASCII verbatim; and a UTF-16 surrogate pair of `\uXXXX` escapes for
characters beyond the basic multilingual plane. -/
def escapeChar (c : Char) : List Char :=
  if c = '"' then ['\\', '"']
  else if c = '\\' then ['\\', '\\']
  else if c = '\x08' then ['\\', 'b']
  else if c = '\x0c' then ['\\', 'f']
  else if c = '\n' then ['\\', 'n']
  else if c = '\r' then ['\\', 'r']
  else if c = '\t' then ['\\', 't']
  else if c.toNat < 0x20 then '\\' :: 'u' :: hex4Chars c.toNat
  else if c.toNat ≤ 0x7e then [c]
  else if c.toNat < 0x10000 then '\\' :: 'u' :: hex4Chars c.toNat
  else
    ('\\' :: 'u' :: hex4Chars (0xd800 + (c.toNat - 0x10000) / 0x400)) ++
    ('\\' :: 'u' :: hex4Chars (0xdc00 + (c.toNat - 0x10000) % 0x400))

/-- A JSON string literal: quote, escaped characters, quote. -/
def strLit (s : String) : List Char :=
  '"' :: (s.data.flatMap escapeChar ++ ['"'])

mutual
/-- `json.dumps` with its defaults (`ensure_ascii=True`, separators
`", "` and `": "`, no indent), as used by `send_message`. -/
def dumps : JVal → List Char
  | .str s => strLit s
  | .num i => intChars i
  | .arr vs => '[' :: (dumpsElems vs ++ [']'])
  | .obj ms => '{' :: (dumpsMembers ms ++ ['}'])
  | .bool false => ['f', 'a', 'l', 's', 'e']
  | .bool true => ['t', 'r', 'u', 'e']
  | .null => ['n', 'u', 'l', 'l']

/-- Array elements joined by `", "` (empty for an empty array, so the
whole array prints as `[]`). -/
def dumpsElems : List JVal → List Char
  | [] => []
  | v :: vs => dumps v ++ dumpsElemSep vs

/-- `", "`-prefixed continuation of an element list. -/
def dumpsElemSep : List JVal → List Char
  | [] => []
  | v :: vs => ',' :: ' ' :: (dumps v ++ dumpsElemSep vs)

/-- Object members `"key": value` joined by `", "`. -/
def dumpsMembers : List (String × JVal) → List Char
  | [] => []
  | (k, v) :: ms => strLit k ++ ':' :: ' ' :: (dumps v ++ dumpsMemberSep ms)

/-- `", "`-prefixed continuation of a member list. -/
def dumpsMemberSep : List (String × JVal) → List Char
  | [] => []
  | (k, v) :: ms => ',' :: ' ' :: (strLit k ++ ':' :: ' ' :: (dumps v ++ dumpsMemberSep ms))
end

/-- JSON whitespace, as `json.loads` skips it. -/
def isJsonWs (c : Char) : Bool := c = ' ' || c = '\t' || c = '\n' || c = '\r'

def skipWs : List Char → List Char
  | [] => []
  | c :: cs => if isJsonWs c then skipWs cs else c :: cs

def isDigitChar (c : Char) : Bool := 48 ≤ c.toNat && c.toNat ≤ 57

/-- Split off the leading run of decimal digits. -/
def takeDigitRun : List Char → List Char × List Char
  | [] => ([], [])
  | c :: cs =>
      if isDigitChar c then
        let p := takeDigitRun cs
        (c :: p.1, p.2)
      else ([], c :: cs)

/-- The number a digit run denotes. -/
def digitsToNat (ds : List Char) : Nat :=
  ds.foldl (fun a c => a * 10 + (c.toNat - 48)) 0

/-- A remainder the digit run cannot extend: empty or headed by a
non-digit. -/
def digitBoundary : List Char → Bool
  | [] => true
  | c :: _ => !isDigitChar c

/-- Parse a JSON integer: optional minus sign, then a nonempty digit run. -/
def parseInt : List Char → Option (Int × List Char)
  | [] => none
  | c :: rest =>
      if c = '-' then
        match takeDigitRun rest with
        | ([], _) => none
        | (ds, r) => some (-(digitsToNat ds : Int), r)
      else
        match takeDigitRun (c :: rest) with
        | ([], _) => none
        | (ds, r) => some ((digitsToNat ds : Int), r)

/-- Value of one hex digit character, as accepted in `\uXXXX`. -/
def hexVal (c : Char) : Option Nat :=
  if 48 ≤ c.toNat ∧ c.toNat ≤ 57 then some (c.toNat - 48)
  else if 97 ≤ c.toNat ∧ c.toNat ≤ 102 then some (c.toNat - 87)
  else if 65 ≤ c.toNat ∧ c.toNat ≤ 70 then some (c.toNat - 55)
  else none

/-- Value of a four-hex-digit group. -/
def hex4Val (a b c d : Char) : Option Nat :=
  match hexVal a, hexVal b, hexVal c, hexVal d with
  | some va, some vb, some vc, some vd => some (((va * 16 + vb) * 16 + vc) * 16 + vd)
  | _, _, _, _ => none

/-- The one-character short escapes `json.loads` accepts after a backslash. -/
def shortUnescape : Char → Option Char
  | '"' => some '"'
  | '\\' => some '\\'
  | '/' => some '/'
  | 'b' => some '\x08'
  | 'f' => some '\x0c'
  | 'n' => some '\n'
  | 'r' => some '\r'
  | 't' => some '\t'
  | _ => none

/-- One escape sequence after a backslash: the short escapes, `\uXXXX`,
and a UTF-16 surrogate pair of two `\uXXXX` groups.  A lone surrogate is
rejected (it has no scalar-value representation here, and this
serializer never emits one). -/
def unescapeOne : List Char → Option (Char × List Char)
  | 'u' :: a :: b :: c :: d :: rest =>
      match hex4Val a b c d with
      | none => none
      | some n =>
          if 0xd800 ≤ n ∧ n < 0xdc00 then
            match rest with
            | '\\' :: 'u' :: a2 :: b2 :: c2 :: d2 :: rest2 =>
                match hex4Val a2 b2 c2 d2 with
                | none => none
                | some m =>
                    if 0xdc00 ≤ m ∧ m < 0xe000 then
                      some (Char.ofNat (0x10000 + (n - 0xd800) * 0x400 + (m - 0xdc00)), rest2)
                    else none
            | _ => none
          else if 0xdc00 ≤ n ∧ n < 0xe000 then none
          else some (Char.ofNat n, rest)
  | e :: rest =>
      match shortUnescape e with
      | some ch => some (ch, rest)
      | none => none
  | [] => none

/-- Body of a JSON string literal after the opening quote, accumulator in
reverse.  A raw control character is rejected (`json.loads` default
`strict=True`).  The fuel only bounds recursion — each step consumes at
least one input character, so callers pass `input length + 1`. -/
def parseStrBody : Nat → List Char → List Char → Option (String × List Char)
  | 0, _, _ => none
  | fuel + 1, acc, cs =>
      match cs with
      | [] => none
      | c :: rest =>
          if c = '"' then some (String.mk acc.reverse, rest)
          else if c = '\\' then
            match unescapeOne rest with
            | some (ch, rest2) => parseStrBody fuel (ch :: acc) rest2
            | none => none
          else if c.toNat < 0x20 then none
          else parseStrBody fuel (c :: acc) rest

mutual
/-- Fuel-indexed JSON value parser modelling `json.loads` on the subset
this server exchanges (numbers restricted to integers: a fractional or
exponent part makes the surrounding parse fail rather than produce a
float).  `fuel` only bounds recursion; `loads` supplies enough for any
input. -/
def parseVal : Nat → List Char → Option (JVal × List Char)
  | 0, _ => none
  | fuel + 1, cs =>
      match skipWs cs with
      | [] => none
      | c :: r =>
          if c = 'n' then
            match r with
            | 'u' :: 'l' :: 'l' :: r2 => some (.null, r2)
            | _ => none
          else if c = 't' then
            match r with
            | 'r' :: 'u' :: 'e' :: r2 => some (.bool true, r2)
            | _ => none
          else if c = 'f' then
            match r with
            | 'a' :: 'l' :: 's' :: 'e' :: r2 => some (.bool false, r2)
            | _ => none
          else if c = '"' then
            match parseStrBody (r.length + 1) [] r with
            | some (s, r2) => some (.str s, r2)
            | none => none
          else if c = '[' then
            match skipWs r with
            | [] => none
            | c2 :: r2 =>
                if c2 = ']' then some (.arr [], r2)
                else
                  match parseElems fuel (c2 :: r2) with
                  | some (vs, r3) => some (.arr vs, r3)
                  | none => none
          else if c = '{' then
            match skipWs r with
            | [] => none
            | c2 :: r2 =>
                if c2 = '}' then some (.obj [], r2)
                else
                  match parseMembers fuel (c2 :: r2) with
                  | some (ms, r3) => some (.obj ms, r3)
                  | none => none
          else if c = '-' ∨ isDigitChar c then
            match parseInt (c :: r) with
            | some (i, r2) => some (.num i, r2)
            | none => none
          else none

/-- One or more comma-separated array elements up to the closing `]`. -/
def parseElems : Nat → List Char → Option (List JVal × List Char)
  | 0, _ => none
  | fuel + 1, cs =>
      match parseVal fuel cs with
      | none => none
      | some (v, r) =>
          match skipWs r with
          | [] => none
          | c2 :: r2 =>
              if c2 = ',' then
                match parseElems fuel r2 with
                | some (vs, r3) => some (v :: vs, r3)
                | none => none
              else if c2 = ']' then some ([v], r2)
              else none

/-- One or more comma-separated `"key": value` members up to the closing `}`. -/
def parseMembers : Nat → List Char → Option (List (String × JVal) × List Char)
  | 0, _ => none
  | fuel + 1, cs =>
      match skipWs cs with
      | [] => none
      | c :: r =>
          if c = '"' then
            match parseStrBody (r.length + 1) [] r with
            | none => none
            | some (k, r1) =>
                match skipWs r1 with
                | [] => none
                | c2 :: r2 =>
                    if c2 = ':' then
                      match parseVal fuel r2 with
                      | none => none
                      | some (v, r3) =>
                          match skipWs r3 with
                          | [] => none
                          | c3 :: r4 =>
                              if c3 = ',' then
                                match parseMembers fuel r4 with
                                | some (ms, r5) => some ((k, v) :: ms, r5)
                                | none => none
                              else if c3 = '}' then some ([(k, v)], r4)
                              else none
                    else none
          else none
end

/-- `json.loads`: parse one JSON document, requiring only whitespace after
it. -/
def loads (cs : List Char) : Option JVal :=
  match parseVal (cs.length + 1) cs with
  | none => none
  | some (v, r) => if skipWs r = [] then some v else none

/-!
## Wire framing

`send_message` (lines 115-122) serializes the message and prepends
`f"Content-Length: {len(content)}\r\n\r\n"`; the pair is then UTF-8
encoded onto the socket.  `handle_client` (lines 51-85) accumulates
decoded chunks in a string buffer and repeatedly applies
`re.match(r'Content-Length: (\d+)\r\n\r\n', buffer)`, slicing
`content_length` characters of body once they have arrived.
Both sides work on Python `str` (characters); the stream is pure ASCII
because `json.dumps` escapes everything non-ASCII, so characters and
UTF-8 bytes coincide (proved below for the whole frame).
-/

/-- The literal header text before the length digits. -/
def headerLit : List Char :=
  ['C', 'o', 'n', 't', 'e', 'n', 't', '-', 'L', 'e', 'n', 'g', 't', 'h', ':', ' ']

/-- The `\r\n\r\n` separator that ends the header. -/
def crlf2 : List Char := ['\r', '\n', '\r', '\n']

/-- `send_message`'s frame for a message `m`:
`"Content-Length: " + str(len(json.dumps(m))) + "\r\n\r\n" + json.dumps(m)`. -/
def encodeFrame (m : JVal) : List Char :=
  headerLit ++ natChars (dumps m).length ++ crlf2 ++ dumps m

/-- Number of bytes of the UTF-8 encoding of one character. -/
def utf8Size (c : Char) : Nat :=
  if c.toNat < 0x80 then 1
  else if c.toNat < 0x800 then 2
  else if c.toNat < 0x10000 then 3
  else 4

/-- Number of bytes of the UTF-8 encoding of a character sequence
(what `len` would give on the Python `bytes` after `.encode('utf-8')`). -/
def utf8Len (cs : List Char) : Nat := (cs.map utf8Size).sum

/-- Strip an expected literal from the front of the buffer. -/
def dropLit : List Char → List Char → Option (List Char)
  | [], cs => some cs
  | _ :: _, [] => none
  | l :: ls, c :: cs => if c = l then dropLit ls cs else none

/-- One attempt of `handle_client`'s inner loop: match the header regex
at the start of the buffer; if it matches and the announced number of
characters of body has arrived, slice the body out and return it with
the remaining buffer; otherwise report that more data is needed
(`none`). -/
def tryFrame (buf : List Char) : Option (List Char × List Char) :=
  match dropLit headerLit buf with
  | none => none
  | some r1 =>
      match takeDigitRun r1 with
      | ([], _) => none
      | (ds, r2) =>
          match dropLit crlf2 r2 with
          | none => none
          | some r3 =>
              let n := digitsToNat ds
              if r3.length < n then none else some (r3.take n, r3.drop n)

/-- Drain every complete frame from the buffer, `json.loads`-ing each
body (`handle_dap_message` receives the parsed value).  `none` models
the `json.loads` exception that aborts the connection; the fuel is
always sufficient because each extracted frame consumes at least the
header. -/
def drainFrames : Nat → List Char → Option (List JVal × List Char)
  | 0, buf => some ([], buf)
  | fuel + 1, buf =>
      match tryFrame buf with
      | none => some ([], buf)
      | some (body, rest) =>
          match loads body with
          | none => none
          | some m =>
              match drainFrames fuel rest with
              | none => none
              | some (ms, buf2) => some (m :: ms, buf2)

/-- `handle_client`'s outer loop over received chunks: append each chunk
to the buffer, then drain complete frames.  Returns every message
delivered to `handle_dap_message`, in order, with the final buffer. -/
def runClient : List (List Char) → List Char → Option (List JVal × List Char)
  | [], buf => some ([], buf)
  | chunk :: chunks, buf =>
      match drainFrames ((buf ++ chunk).length + 1) (buf ++ chunk) with
      | none => none
      | some (ms, buf2) =>
          match runClient chunks buf2 with
          | none => none
          | some (ms2, buf3) => some (ms ++ ms2, buf3)

/-!
## Server state and outbound messages

`__init__` (lines 21-31) sets `seq = 0`; `send_response` (87-101) and
`send_event` (103-113) each pre-increment `seq` and build the outgoing
envelope; `send_message` (115-122) serializes and writes it, swallowing
any send exception.  The socket write is modelled by a boolean oracle
saying whether `sendall` raises.
-/

/-- The request fields `send_response` reads (`request["seq"]`,
`request["command"]`). -/
structure Request where
  seq : Int
  command : String

/-- The server fields the verified handlers touch.  `seq` lives on the
server object, created once in `__init__`, so it is shared by every
client connection. -/
structure ServerState where
  seq : Nat
  running : Bool
  initialized : Bool

/-- `GDBDAPServer.__init__`: `seq = 0`, `running = True`,
`initialized = False`. -/
def ServerState.init : ServerState :=
  { seq := 0, running := true, initialized := false }

/-- The response dictionary `send_response` builds, in Python `dict`
insertion order: the five fixed keys, then `body` (only if supplied),
then `message` (only if non-empty). -/
def response_msg (seq : Nat) (request : Request) (body : Option JVal)
    (success : Bool) (message : String) : JVal :=
  .obj ([("seq", .num seq), ("type", .str "response"),
         ("request_seq", .num request.seq), ("command", .str request.command),
         ("success", .bool success)] ++
        (match body with | some b => [("body", b)] | none => []) ++
        (if message = "" then [] else [("message", .str message)]))

/-- The event dictionary `send_event` builds: `seq`, `type`, `event`,
then `body` (only if supplied). -/
def event_msg (seq : Nat) (event : String) (body : Option JVal) : JVal :=
  .obj ([("seq", .num seq), ("type", .str "event"), ("event", .str event)] ++
        (match body with | some b => [("body", b)] | none => []))

/-- The `seq` field of an outbound envelope. -/
def msgSeq : JVal → Option Int
  | .obj ms => (ms.lookup "seq").bind (fun v => match v with | .num i => some i | _ => none)
  | _ => none

/-- `self.client_socket.sendall(...)`: raises iff the oracle says so. -/
def sendall (fails : Bool) : Except String Unit :=
  if fails then .error "send error" else .ok ()

/-- `send_message`: serialize the message, frame it, and try the socket
write; on an exception, log and swallow it.  Returns the frames actually
delivered (empty when the send failed).  It never raises and never
touches server state. -/
def send_message (fails : Bool) (msg : JVal) : Except String (List (List Char)) :=
  match sendall fails with
  | .ok _ => .ok [encodeFrame msg]
  | .error _ => .ok []

/-- `send_response`: pre-increment `seq`, build the response envelope,
and pass it to `send_message`.  Returns the new state, the envelope, and
the delivered frames. -/
def send_response (st : ServerState) (request : Request) (body : Option JVal := none)
    (success : Bool := true) (message : String := "") (sendFails : Bool := false) :
    Except String (ServerState × JVal × List (List Char)) :=
  let st2 : ServerState := { st with seq := st.seq + 1 }
  let response : JVal := response_msg st2.seq request body success message
  match send_message sendFails response with
  | .ok delivered => .ok (st2, response, delivered)
  | .error e => .error e

/-- `send_event`: pre-increment `seq`, build the event envelope, and
pass it to `send_message`. -/
def send_event (st : ServerState) (event : String) (body : Option JVal := none)
    (sendFails : Bool := false) :
    Except String (ServerState × JVal × List (List Char)) :=
  let st2 : ServerState := { st with seq := st.seq + 1 }
  let msg : JVal := event_msg st2.seq event body
  match send_message sendFails msg with
  | .ok delivered => .ok (st2, msg, delivered)
  | .error e => .error e

/-!
## Concurrent sends and the unsynchronized `seq` counter

`send_response` (line 89) and `send_event` (line 105) both execute
`self.seq += 1` and then build an envelope whose `"seq"` entry re-reads
`self.seq` (lines 91 and 107).  The increment is a plain Python
read-modify-write with no lock, and the handler thread and the watcher
threads spawned by `handle_continue` call these senders concurrently,
so the read, the write-back and the envelope construction of different
calls may interleave at bytecode granularity.  The model below makes
the three shared-counter accesses of each call separate atomic steps of
a scheduler: `load` is the read inside `self.seq += 1`, `store` its
write-back of the read value plus one, and `emit` the dictionary
construction (re-reading `self.seq`) together with `send_message`. -/

/-- The arguments of one `send_response` / `send_event` call. -/
inductive SendKind where
  | response (request : Request) (body : Option JVal) (success : Bool)
      (message : String)
  | event (name : String) (body : Option JVal)

/-- The envelope the call constructs when `self.seq` holds `s` at
dictionary-construction time. -/
def sendEnvelope (s : Nat) : SendKind → JVal
  | .response request body success message => response_msg s request body success message
  | .event name body => event_msg s name body

/-- One thread in the middle of a sender call: which call it performs,
which client connection its `self.client_socket` write goes to, its
position (`0` = before the read of `self.seq += 1`, `1` = read done,
`2` = write-back done, `3` = envelope built and passed to
`send_message`), and the counter value its read obtained. -/
structure SenderThread where
  kind : SendKind
  conn : Nat
  pc : Nat
  reg : Nat

/-- The shared state the racing calls operate on: the server object's
`seq` field, the sender threads, and the envelopes handed to
`send_message` so far, each tagged with the connection it is written
to, in emission order. -/
structure SeqCfg where
  seq : Nat
  threads : List SenderThread
  sent : List (Nat × JVal)

/-- One scheduler step: some thread executes its next atomic access to
the shared counter. -/
inductive SeqStep : SeqCfg → SeqCfg → Prop
  | load (cfg : SeqCfg) (i : Nat) (t : SenderThread)
      (ht : cfg.threads[i]? = some t) (hpc : t.pc = 0) :
      SeqStep cfg ⟨cfg.seq, cfg.threads.set i ⟨t.kind, t.conn, 1, cfg.seq⟩, cfg.sent⟩
  | store (cfg : SeqCfg) (i : Nat) (t : SenderThread)
      (ht : cfg.threads[i]? = some t) (hpc : t.pc = 1) :
      SeqStep cfg ⟨t.reg + 1, cfg.threads.set i ⟨t.kind, t.conn, 2, t.reg⟩, cfg.sent⟩
  | emit (cfg : SeqCfg) (i : Nat) (t : SenderThread)
      (ht : cfg.threads[i]? = some t) (hpc : t.pc = 2) :
      SeqStep cfg ⟨cfg.seq, cfg.threads.set i ⟨t.kind, t.conn, 3, t.reg⟩,
        cfg.sent ++ [(t.conn, sendEnvelope cfg.seq t.kind)]⟩

/-- Reachability from an initial configuration under some schedule. -/
inductive SeqReach (init : SeqCfg) : SeqCfg → Prop
  | refl : SeqReach init init
  | step {a b : SeqCfg} : SeqReach init a → SeqStep a b → SeqReach init b

/-!
## `_wait_for_stop` (lines 392-414)

The watcher thread reads the debugger's stdout line by line.  A line
containing `*stopped` produces one event — `stopped` with reason `step`
if the line contains `reason="end-stepping-range"`, a `terminated` event
if it contains `reason="exited`, otherwise `stopped` with reason
`breakpoint` — after which the loop breaks or returns.  Every other
line, including the recognized `^running` / `*running` resumption
records, is consumed without emitting anything. -/

/-- Does `needle` occur as a contiguous run somewhere in the list? -/
def containsSubAux (needle : List Char) : List Char → Bool
  | [] => needle.isEmpty
  | c :: cs => needle.isPrefixOf (c :: cs) || containsSubAux needle cs

/-- Substring test, Python's `needle in haystack` on `str`. -/
def containsSub (haystack needle : String) : Bool :=
  containsSubAux needle.data haystack.data

/-- An event the watcher can emit. -/
inductive WEvent where
  | stopped (reason : String)
  | terminated
deriving DecidableEq, Repr

/-- `_wait_for_stop` as a function of the lines the watcher reads, in
order: the events it emits.  The empty list models the stream ending (or
the session stopping) before any stop record is seen. -/
def wait_for_stop : List String → List WEvent
  | [] => []
  | line :: rest =>
      if containsSub line "*stopped" then
        if containsSub line "reason=\"end-stepping-range\"" then [.stopped "step"]
        else if containsSub line "reason=\"exited" then [.terminated]
        else [.stopped "breakpoint"]
      else wait_for_stop rest

/-!
## `handle_setBreakpoints` (lines 204-236)

The handler reads the source path and breakpoint entries, issues one
argumentless `-break-delete` (clear everything, whatever the file),
then one `-break-insert` per entry in request order, classifying each
installation from the drained output.  GDB is an oracle: `outputs i` is
what `_read_gdb_until_prompt` returns after the `i`-th command (0 for
the delete, `i ≥ 1` for the `i`-th insert). -/

/-- One entry of the request's `breakpoints` array: `bp.get("line")` and
`bp.get("condition", "")`. -/
structure SrcBp where
  line : Int
  condition : String := ""

/-- One entry of the response's `breakpoints` array. -/
structure OutBp where
  id : Nat
  verified : Bool
  line : Int
  path : String
deriving DecidableEq, Repr

/-- The `-break-insert` command text for one entry:
`f"-break-insert {path}:{line}"` plus, for a non-empty condition,
`f" -c \"{condition}\""`. -/
def insertCmd (path : String) (bp : SrcBp) : String :=
  "-break-insert " ++ path ++ ":" ++ String.mk (intChars bp.line) ++
    (if bp.condition = "" then "" else " -c \"" ++ bp.condition ++ "\"")

/-- Python's `"done" in output.lower()` (ASCII lowering, which is all
GDB MI output uses). -/
def containsDone (output : String) : Bool :=
  containsSub (String.mk (output.data.map Char.toLower)) "done"

/-- The `for i, bp in enumerate(breakpoints)` loop: one insert command
and one result entry per breakpoint, ids assigned `i + 1`. -/
def setBp_loop (path : String) (outputs : Nat → String) :
    List SrcBp → Nat → List String × List OutBp
  | [], _ => ([], [])
  | bp :: rest, i =>
      let cmd := insertCmd path bp
      let verified := containsDone (outputs (i + 1))
      let p := setBp_loop path outputs rest (i + 1)
      (cmd :: p.1, { id := i + 1, verified := verified, line := bp.line, path := path } :: p.2)

/-- `handle_setBreakpoints`: the GDB commands issued in order, and the
`breakpoints` list of the response body. -/
def handle_setBreakpoints (path : String) (bps : List SrcBp) (outputs : Nat → String) :
    List String × List OutBp :=
  let p := setBp_loop path outputs bps 0
  ("-break-delete" :: p.1, p.2)

/-!
## `handle_launch` (lines 155-202)

Everything inside the `try` block that can raise is an oracle: the
`subprocess.Popen` spawn, and each `_send_gdb_command` pipe write (a
broken pipe can strike even while GDB keeps running, e.g. if it closed
its stdin).  `_read_gdb_until_prompt` never raises (its internal reads
are guarded and a timeout returns partial output).  The `except` branch
sends one failure response carrying `str(e)` — and terminates nothing. -/

/-- The failure points and GDB output of one launch attempt.  `none`
for an exception field means that step does not raise. -/
structure LaunchEnv where
  spawnExc : Option String
  pid : Nat
  breakInsertExc : Option String
  runExc : Option String
  runOutput : String

/-- What a launch attempt emitted and left behind.  `gdbSpawned` is
whether `self.gdb_process` was assigned a live process;
`gdbTerminated` is whether the handler terminated it. -/
structure LaunchResult where
  responses : List (Bool × String)
  events : List (String × Option String)
  gdbSpawned : Bool
  gdbTerminated : Bool
deriving DecidableEq, Repr

/-- The `except Exception as e` branch: one failure response with the
error text, nothing else — in particular no `terminate()` call. -/
def launchFailure (e : String) (spawned : Bool) : LaunchResult :=
  { responses := [(false, e)], events := [], gdbSpawned := spawned, gdbTerminated := false }

/-- `handle_launch`: spawn GDB, drain startup output, optionally insert
the entry breakpoint, run, then respond success, emit the `process`
event and, if the drained run output contains `*stopped`, a `stopped`
event with reason `entry` (when `stopOnEntry`) or `breakpoint`.  Any
exception falls into `launchFailure`. -/
def handle_launch (env : LaunchEnv) (stopOnEntry : Bool) : LaunchResult :=
  match env.spawnExc with
  | some e => launchFailure e false
  | none =>
      -- gdb_process assigned; _read_gdb_until_prompt cannot raise
      match (if stopOnEntry then env.breakInsertExc else none) with
      | some e => launchFailure e true
      | none =>
          match env.runExc with
          | some e => launchFailure e true
          | none =>
              { responses := [(true, "")],
                events := [("process", none)] ++
                  (if containsSub env.runOutput "*stopped" then
                    [("stopped", some (if stopOnEntry then "entry" else "breakpoint"))]
                   else []),
                gdbSpawned := true,
                gdbTerminated := false }

/-!
## `handle_continue` (lines 310-314) and the watcher race

`handle_continue` writes `-exec-continue`, starts the watcher thread,
and only then sends its response.  A tiny interleaving semantics makes
the race checkable: the handler runs its three statements in program
order; once the thread has been started, watcher emissions (the events
`wait_for_stop` produces for the lines GDB will print) may interleave
freely with the handler's remaining statements. -/

/-- A client-observable emission of the continue request. -/
inductive ContObs where
  | response
  | event (e : WEvent)
deriving DecidableEq, Repr

/-- The handler thread's remaining statements, in the source's order:
`["-exec-continue" write, Thread(...).start(), send_response]`. -/
inductive ContStmt where
  | gdbCmd
  | startWatcher
  | respond
deriving DecidableEq, Repr

/-- A configuration of the two threads: the handler's remaining
statements, the watcher's remaining emissions (`none` until the thread
is started), and the output emitted so far. -/
structure ContCfg where
  handler : List ContStmt
  watcher : Option (List WEvent)
  out : List ContObs
deriving DecidableEq, Repr

/-- The state when `handle_continue` is entered: all three statements
pending, no watcher. -/
def contInit : ContCfg :=
  { handler := [.gdbCmd, .startWatcher, .respond], watcher := none, out := [] }

/-- One scheduler step: either thread runs its next statement.
`lines` is the debugger output the watcher will read. -/
inductive ContStep (lines : List String) : ContCfg → ContCfg → Prop
  | gdbCmd (h : List ContStmt) (w : Option (List WEvent)) (out : List ContObs) :
      ContStep lines ⟨.gdbCmd :: h, w, out⟩ ⟨h, w, out⟩
  | startWatcher (h : List ContStmt) (out : List ContObs) :
      ContStep lines ⟨.startWatcher :: h, none, out⟩ ⟨h, some (wait_for_stop lines), out⟩
  | respond (h : List ContStmt) (w : Option (List WEvent)) (out : List ContObs) :
      ContStep lines ⟨.respond :: h, w, out⟩ ⟨h, w, out ++ [.response]⟩
  | watcherEmit (h : List ContStmt) (e : WEvent) (es : List WEvent) (out : List ContObs) :
      ContStep lines ⟨h, some (e :: es), out⟩ ⟨h, some es, out ++ [.event e]⟩

/-- Reachability from the initial configuration under some schedule. -/
inductive ContReach (lines : List String) : ContCfg → Prop
  | init : ContReach lines contInit
  | step {a b : ContCfg} : ContReach lines a → ContStep lines a b → ContReach lines b

/-!
## Remaining definitions used by the claim statements -/

/-- Every character is ASCII (`< 0x80`), so its UTF-8 encoding is the
identity byte and Python `str` indices coincide with byte offsets. -/
def allAscii (cs : List Char) : Bool := cs.all (fun c => c.toNat < 128)

/-- The `finally` clause of `handle_client` (lines 81-85): it terminates
the GDB process and closes the client socket; no field of the server
object — in particular not `seq` — is assigned, so connection teardown
is the identity on the modelled server state. -/
def handle_client_cleanup (st : ServerState) : ServerState := st

/-- Did a `stopped`/`terminated` event reach the client before the
response?  (`out` is chronological.) -/
def stopBeforeResponse : List ContObs → Bool
  | [] => false
  | .response :: _ => false
  | .event _ :: _ => true

/-- The exception `handle_launch`'s `try` block raises under `env`, if
any: the spawn failure, else (when `stopOnEntry`) the breakpoint-insert
write failure, else the run write failure. -/
def launchException (env : LaunchEnv) (stopOnEntry : Bool) : Option String :=
  match env.spawnExc with
  | some e => some e
  | none =>
      match (if stopOnEntry then env.breakInsertExc else none) with
      | some e => some e
      | none => env.runExc

/-- A debugger subprocess exists and the handler did not terminate it. -/
def processLeftRunning (r : LaunchResult) : Bool :=
  r.gdbSpawned && !r.gdbTerminated

/-- Claim C7 as stated: whenever launch handling raises, the client gets
exactly one failure response carrying the error text, no events, and no
debugger subprocess is left running. -/
def launchFailureClaim (env : LaunchEnv) (stopOnEntry : Bool) : Prop :=
  ∀ e, launchException env stopOnEntry = some e →
    (handle_launch env stopOnEntry).responses = [(false, e)] ∧
    (handle_launch env stopOnEntry).events = [] ∧
    processLeftRunning (handle_launch env stopOnEntry) = false

/-!
# Theorems

Helper lemmas first (shared), then one theorem per claim, each with its
witness where the statement carries hypotheses.
-/

theorem setBp_loop_cmds (path : String) (outputs : Nat → String) :
    ∀ (bps : List SrcBp) (i : Nat),
      (setBp_loop path outputs bps i).1 = bps.map (insertCmd path)
  | [], _ => rfl
  | bp :: rest, i => by
      simp [setBp_loop, setBp_loop_cmds path outputs rest (i + 1)]

theorem setBp_loop_len (path : String) (outputs : Nat → String) :
    ∀ (bps : List SrcBp) (i : Nat),
      (setBp_loop path outputs bps i).2.length = bps.length
  | [], _ => rfl
  | bp :: rest, i => by
      simp [setBp_loop, setBp_loop_len path outputs rest (i + 1)]

theorem setBp_loop_get (path : String) (outputs : Nat → String) :
    ∀ (bps : List SrcBp) (i j : Nat) (bp : SrcBp), bps[j]? = some bp →
      (setBp_loop path outputs bps i).2[j]? =
        some { id := i + j + 1, verified := containsDone (outputs (i + j + 1)),
               line := bp.line, path := path }
  | [], _, j, _, h => by simp at h
  | bp0 :: rest, i, 0, bp, h => by
      simp at h
      subst h
      simp [setBp_loop]
  | bp0 :: rest, i, j + 1, bp, h => by
      simp at h
      have ih := setBp_loop_get path outputs rest (i + 1) j bp h
      simp only [setBp_loop]
      simpa [Nat.add_assoc, Nat.add_comm 1 j] using ih

/-- C4: a `setBreakpoints` request with `N` entries yields exactly `N`
breakpoint objects, in request order: the `j`-th (0-based) echoes the
`j`-th requested `line`, has id `j + 1`, and is verified exactly when the
drained output of its installation contains the case-insensitive token
`done`. -/
theorem handle_setBreakpoints_response (path : String) (bps : List SrcBp)
    (outputs : Nat → String) :
    (handle_setBreakpoints path bps outputs).2.length = bps.length ∧
    ∀ j bp, bps[j]? = some bp →
      (handle_setBreakpoints path bps outputs).2[j]? =
        some ({ id := j + 1, verified := containsDone (outputs (j + 1)),
                line := bp.line, path := path } : OutBp) := by
  refine ⟨?_, ?_⟩
  · simp [handle_setBreakpoints, setBp_loop_len]
  · intro j bp h
    have := setBp_loop_get path outputs bps 0 j bp h
    simpa [handle_setBreakpoints] using this

theorem handle_setBreakpoints_response_witness :
    (handle_setBreakpoints "main.rs" [{ line := 10 }, { line := 20, condition := "x>5" }]
        (fun i => if i = 1 then "^done,bkpt" else "^error,msg")).2[1]? =
      some ({ id := 2, verified := false, line := 20, path := "main.rs" } : OutBp) := by
  have h := (handle_setBreakpoints_response "main.rs"
      [{ line := 10 }, { line := 20, condition := "x>5" }]
      (fun i => if i = 1 then "^done,bkpt" else "^error,msg")).2
      1 { line := 20, condition := "x>5" } rfl
  rw [h]
  decide

/-- C5: `handle_setBreakpoints` always issues the argumentless
`-break-delete` (clear every breakpoint in the debugger, whatever file
the request names) as its very first GDB command, before any insert; the
remaining commands are exactly the `-break-insert` per requested entry,
in request order — no other debugger command precedes the installs. -/
theorem handle_setBreakpoints_clears_all (path : String) (bps : List SrcBp)
    (outputs : Nat → String) :
    (handle_setBreakpoints path bps outputs).1 =
      "-break-delete" :: bps.map (insertCmd path) := by
  simp [handle_setBreakpoints, setBp_loop_cmds]

/-- C8: `wait_for_stop` emits at most one event per resume command; a
line containing `*stopped` yields exactly one event classified by
substring search (`end-stepping-range` → step, else `exited` →
`terminated` and the watcher ceases, else breakpoint); a `^running` /
`*running` line (with no stop record) is consumed without emitting
anything. -/
theorem wait_for_stop_classification (lines : List String) :
    (wait_for_stop lines).length ≤ 1 ∧
    (∀ line rest, containsSub line "*stopped" = true →
      wait_for_stop (line :: rest) =
        [if containsSub line "reason=\"end-stepping-range\"" then WEvent.stopped "step"
         else if containsSub line "reason=\"exited" then WEvent.terminated
         else WEvent.stopped "breakpoint"]) ∧
    (∀ line rest, containsSub line "*stopped" = false →
      (containsSub line "^running" || containsSub line "*running") = true →
      wait_for_stop (line :: rest) = wait_for_stop rest) := by
  refine ⟨?_, ?_, ?_⟩
  · induction lines with
    | nil => simp [wait_for_stop]
    | cons l ls ih =>
        by_cases h : containsSub l "*stopped" = true
        · simp only [wait_for_stop, h, if_true]
          split_ifs <;> simp
        · simpa [wait_for_stop, h] using ih
  · intro line rest h
    simp only [wait_for_stop, h, if_true]
    split_ifs <;> rfl
  · intro line rest h _
    simp [wait_for_stop, h]

theorem wait_for_stop_classification_witness :
    wait_for_stop ["^running", "*stopped,reason=\"exited-normally\""] = [WEvent.terminated] := by
  have h1 := (wait_for_stop_classification []).2.2 "^running"
    ["*stopped,reason=\"exited-normally\""] (by decide) (by decide)
  have h2 := (wait_for_stop_classification []).2.1 "*stopped,reason=\"exited-normally\"" []
    (by decide)
  rw [h1, h2]
  decide

/-- C10: a socket failure inside `send_message` is swallowed for every
response and every event: the call still returns normally (`.ok`, so no
handler or watcher raises), the sequence counter has still advanced by
one, the envelope was still built, no other server field changed — only
the wire delivery is empty. -/
theorem send_failure_swallowed (st : ServerState) (request : Request)
    (body : Option JVal) (success : Bool) (message : String) (name : String)
    (fails : Bool) :
    (send_response st request body success message fails =
      .ok ({ st with seq := st.seq + 1 },
           response_msg (st.seq + 1) request body success message,
           if fails then []
           else [encodeFrame (response_msg (st.seq + 1) request body success message)])) ∧
    (send_event st name body fails =
      .ok ({ st with seq := st.seq + 1 },
           event_msg (st.seq + 1) name body,
           if fails then [] else [encodeFrame (event_msg (st.seq + 1) name body)])) := by
  cases fails <;> exact ⟨rfl, rfl⟩

/-- C6 (the code violates the claimed ordering): under the schedule in
which the freshly started watcher thread runs to completion between
`Thread(...).start()` and the handler's `send_response` — GDB having
already printed a stop record — the client observes the `stopped` event
strictly before the `continue` response.  The source spawns the watcher
first (line 313) and responds after (line 314), so nothing prevents this
interleaving. -/
theorem handle_continue_event_before_response :
    ContReach ["*stopped,reason=\"breakpoint\",thread-id=\"1\""]
      { handler := [], watcher := some [],
        out := [.event (.stopped "breakpoint"), .response] } ∧
    stopBeforeResponse [.event (.stopped "breakpoint"), .response] = true := by
  refine ⟨?_, rfl⟩
  have h0 : ContReach ["*stopped,reason=\"breakpoint\",thread-id=\"1\""] contInit :=
    ContReach.init
  have h1 := ContReach.step h0 (ContStep.gdbCmd [.startWatcher, .respond] none [])
  have h2 := ContReach.step h1 (ContStep.startWatcher [.respond] [])
  have h2' : ContReach ["*stopped,reason=\"breakpoint\",thread-id=\"1\""]
      { handler := [.respond], watcher := some [WEvent.stopped "breakpoint"], out := [] } := h2
  have h3 := ContReach.step h2'
    (ContStep.watcherEmit [.respond] (WEvent.stopped "breakpoint") [] [])
  have h4 := ContReach.step h3
    (ContStep.respond [] (some []) [ContObs.event (WEvent.stopped "breakpoint")])
  exact h4

/-- C7 counterexample: when the spawn succeeds but the very next pipe
write raises (GDB can close its stdin and keep running), the `except`
branch sends the failure response but never terminates the process it
spawned — a debugger subprocess is left running, contradicting the
claim. -/
theorem launch_failure_claim_counterexample :
    ¬ launchFailureClaim
        { spawnExc := none, pid := 7,
          breakInsertExc := some "BrokenPipeError: [Errno 32] Broken pipe",
          runExc := none, runOutput := "" } true := by
  intro h
  have h2 := h "BrokenPipeError: [Errno 32] Broken pipe" rfl
  exact absurd h2.2.2 (by decide)

/-- C7 (amended): whenever launch handling raises, the client receives
exactly one failure response carrying the error text and no `process` or
`stopped` event is emitted; the handler never terminates a process; when
the spawn itself failed no debugger subprocess exists, but when the
exception struck after a successful spawn the spawned process is left
behind un-terminated. -/
theorem handle_launch_failure (env : LaunchEnv) (stopOnEntry : Bool) (e : String)
    (h : launchException env stopOnEntry = some e) :
    (handle_launch env stopOnEntry).responses = [(false, e)] ∧
    (handle_launch env stopOnEntry).events = [] ∧
    (handle_launch env stopOnEntry).gdbTerminated = false ∧
    (handle_launch env stopOnEntry).gdbSpawned = decide (env.spawnExc = none) := by
  unfold launchException at h
  unfold handle_launch
  cases hs : env.spawnExc with
  | some e2 =>
      rw [hs] at h
      simp only [Option.some.injEq] at h
      subst h
      simp [launchFailure]
  | none =>
      rw [hs] at h
      cases stopOnEntry <;> cases hb : env.breakInsertExc <;> cases hr : env.runExc <;>
        simp_all [launchFailure]

theorem handle_launch_failure_witness :
    (handle_launch
        { spawnExc := some "FileNotFoundError: [Errno 2] No such file or directory: 'gdb'",
          pid := 0, breakInsertExc := none, runExc := none, runOutput := "" }
        true).responses =
      [(false, "FileNotFoundError: [Errno 2] No such file or directory: 'gdb'")] :=
  (handle_launch_failure
    { spawnExc := some "FileNotFoundError: [Errno 2] No such file or directory: 'gdb'",
      pid := 0, breakInsertExc := none, runExc := none, runOutput := "" }
    true "FileNotFoundError: [Errno 2] No such file or directory: 'gdb'" rfl).1

theorem msgSeq_response (n : Nat) (request : Request) (body : Option JVal)
    (success : Bool) (message : String) :
    msgSeq (response_msg n request body success message) = some (n : Int) := by
  simp [msgSeq, response_msg, List.lookup]

theorem msgSeq_event (n : Nat) (event : String) (body : Option JVal) :
    msgSeq (event_msg n event body) = some (n : Int) := by
  simp [msgSeq, event_msg, List.lookup]

/-- **C3.** The claimed invariant fails in the code: `self.seq += 1` in
`send_response` (line 89) and `send_event` (line 105) is an
unsynchronized read-modify-write shared between the handler thread and
the watcher thread `handle_continue` starts.  Racing from `seq = 5`,
the continue response and the watcher's `stopped` event can both read
`5` before either writes back; both then store `6` and both envelopes
are built with `seq = 6`, so one connection receives two successive
outbound messages carrying the same sequence number — neither strictly
increasing nor unreused. -/
theorem outbound_seq_reused :
    ∃ c : SeqCfg,
      SeqReach
        ⟨5, [⟨.response ⟨3, "continue"⟩ none true "", 1, 0, 0⟩,
             ⟨.event "stopped" none, 1, 0, 0⟩], []⟩ c ∧
      c.sent = [(1, sendEnvelope 6 (.response ⟨3, "continue"⟩ none true "")),
                (1, sendEnvelope 6 (.event "stopped" none))] ∧
      msgSeq (sendEnvelope 6 (.response ⟨3, "continue"⟩ none true "")) = some 6 ∧
      msgSeq (sendEnvelope 6 (.event "stopped" none)) = some 6 := by
  refine ⟨⟨6, [⟨.response ⟨3, "continue"⟩ none true "", 1, 3, 5⟩,
              ⟨.event "stopped" none, 1, 3, 5⟩],
           [(1, sendEnvelope 6 (.response ⟨3, "continue"⟩ none true "")),
            (1, sendEnvelope 6 (.event "stopped" none))]⟩, ?_, rfl, rfl, rfl⟩
  have s1 : SeqStep
      ⟨5, [⟨.response ⟨3, "continue"⟩ none true "", 1, 0, 0⟩,
           ⟨.event "stopped" none, 1, 0, 0⟩], []⟩
      ⟨5, [⟨.response ⟨3, "continue"⟩ none true "", 1, 1, 5⟩,
           ⟨.event "stopped" none, 1, 0, 0⟩], []⟩ :=
    by apply SeqStep.load _ 0 ⟨.response ⟨3, "continue"⟩ none true "", 1, 0, 0⟩ <;> rfl
  have s2 : SeqStep
      ⟨5, [⟨.response ⟨3, "continue"⟩ none true "", 1, 1, 5⟩,
           ⟨.event "stopped" none, 1, 0, 0⟩], []⟩
      ⟨5, [⟨.response ⟨3, "continue"⟩ none true "", 1, 1, 5⟩,
           ⟨.event "stopped" none, 1, 1, 5⟩], []⟩ :=
    by apply SeqStep.load _ 1 ⟨.event "stopped" none, 1, 0, 0⟩ <;> rfl
  have s3 : SeqStep
      ⟨5, [⟨.response ⟨3, "continue"⟩ none true "", 1, 1, 5⟩,
           ⟨.event "stopped" none, 1, 1, 5⟩], []⟩
      ⟨6, [⟨.response ⟨3, "continue"⟩ none true "", 1, 2, 5⟩,
           ⟨.event "stopped" none, 1, 1, 5⟩], []⟩ :=
    by apply SeqStep.store _ 0 ⟨.response ⟨3, "continue"⟩ none true "", 1, 1, 5⟩ <;> rfl
  have s4 : SeqStep
      ⟨6, [⟨.response ⟨3, "continue"⟩ none true "", 1, 2, 5⟩,
           ⟨.event "stopped" none, 1, 1, 5⟩], []⟩
      ⟨6, [⟨.response ⟨3, "continue"⟩ none true "", 1, 2, 5⟩,
           ⟨.event "stopped" none, 1, 2, 5⟩], []⟩ :=
    by apply SeqStep.store _ 1 ⟨.event "stopped" none, 1, 1, 5⟩ <;> rfl
  have s5 : SeqStep
      ⟨6, [⟨.response ⟨3, "continue"⟩ none true "", 1, 2, 5⟩,
           ⟨.event "stopped" none, 1, 2, 5⟩], []⟩
      ⟨6, [⟨.response ⟨3, "continue"⟩ none true "", 1, 3, 5⟩,
           ⟨.event "stopped" none, 1, 2, 5⟩],
        [(1, sendEnvelope 6 (.response ⟨3, "continue"⟩ none true ""))]⟩ :=
    by apply SeqStep.emit _ 0 ⟨.response ⟨3, "continue"⟩ none true "", 1, 2, 5⟩ <;> rfl
  have s6 : SeqStep
      ⟨6, [⟨.response ⟨3, "continue"⟩ none true "", 1, 3, 5⟩,
           ⟨.event "stopped" none, 1, 2, 5⟩],
        [(1, sendEnvelope 6 (.response ⟨3, "continue"⟩ none true ""))]⟩
      ⟨6, [⟨.response ⟨3, "continue"⟩ none true "", 1, 3, 5⟩,
           ⟨.event "stopped" none, 1, 3, 5⟩],
        [(1, sendEnvelope 6 (.response ⟨3, "continue"⟩ none true "")),
         (1, sendEnvelope 6 (.event "stopped" none))]⟩ :=
    by apply SeqStep.emit _ 1 ⟨.event "stopped" none, 1, 2, 5⟩ <;> rfl
  exact SeqReach.step (SeqReach.step (SeqReach.step (SeqReach.step
    (SeqReach.step (SeqReach.step SeqReach.refl s1) s2) s3) s4) s5) s6

/-- **C9.** The per-instance half of the claim holds: `__init__` sets
`seq = 0` once for the server object and `handle_client`'s `finally`
(connection teardown) never assigns it, so the counter persists across
connections.  The strict-dominance conclusion fails, though, because
`self.seq += 1` is not atomic.  Schedule: during the first connection a
`send_response` reads `seq = 0` and stalls before its write-back while
two watcher `send_event`s run to completion (client 1 receives seqs `1`
and `2`); the stalled sender then writes its stale `0 + 1` back and
emits seq `1`, regressing the counter below the `2` already delivered.
After teardown the second connection's first response reads `1`, stores
`2` and is emitted with seq `2` — equal to a seq client 1 already saw,
not strictly greater than every one of them. -/
theorem seq_counter_regression :
    ServerState.init.seq = 0 ∧
    (∀ st : ServerState, handle_client_cleanup st = st) ∧
    ∃ c : SeqCfg,
      SeqReach
        ⟨ServerState.init.seq,
                 [⟨.response ⟨7, "continue"⟩ none true "", 1, 0, 0⟩,
                  ⟨.event "stopped" none, 1, 0, 0⟩,
                  ⟨.event "stopped" none, 1, 0, 0⟩,
                  ⟨.response ⟨1, "initialize"⟩ none true "", 2, 0, 0⟩],
                 []⟩ c ∧
      c.sent = [(1, sendEnvelope 1 (.event "stopped" none)),
                (1, sendEnvelope 2 (.event "stopped" none)),
                (1, sendEnvelope 1 (.response ⟨7, "continue"⟩ none true "")),
                (2, sendEnvelope 2 (.response ⟨1, "initialize"⟩ none true ""))] ∧
      ∃ p q : Nat × JVal, p ∈ c.sent ∧ c.sent.getLast? = some q ∧
        p.1 = 1 ∧ q.1 = 2 ∧
        ∃ a b : Int, msgSeq p.2 = some a ∧ msgSeq q.2 = some b ∧ ¬ a < b := by
  refine ⟨rfl, fun st => rfl,
    ⟨2,
                 [⟨.response ⟨7, "continue"⟩ none true "", 1, 3, 0⟩,
                  ⟨.event "stopped" none, 1, 3, 0⟩,
                  ⟨.event "stopped" none, 1, 3, 1⟩,
                  ⟨.response ⟨1, "initialize"⟩ none true "", 2, 3, 1⟩],
                 [(1, sendEnvelope 1 (.event "stopped" none)),
                  (1, sendEnvelope 2 (.event "stopped" none)),
                  (1, sendEnvelope 1 (.response ⟨7, "continue"⟩ none true "")),
                  (2, sendEnvelope 2 (.response ⟨1, "initialize"⟩ none true ""))]⟩,
    ?_, rfl,
    (1, sendEnvelope 2 (.event "stopped" none)),
    (2, sendEnvelope 2 (.response ⟨1, "initialize"⟩ none true "")),
    List.mem_cons_of_mem _ (List.mem_cons_self _ _),
    rfl, rfl, rfl, 2, 2, rfl, rfl, by decide⟩
  have s1 : SeqStep
      ⟨0,
                 [⟨.response ⟨7, "continue"⟩ none true "", 1, 0, 0⟩,
                  ⟨.event "stopped" none, 1, 0, 0⟩,
                  ⟨.event "stopped" none, 1, 0, 0⟩,
                  ⟨.response ⟨1, "initialize"⟩ none true "", 2, 0, 0⟩],
                 []⟩
      ⟨0,
                 [⟨.response ⟨7, "continue"⟩ none true "", 1, 1, 0⟩,
                  ⟨.event "stopped" none, 1, 0, 0⟩,
                  ⟨.event "stopped" none, 1, 0, 0⟩,
                  ⟨.response ⟨1, "initialize"⟩ none true "", 2, 0, 0⟩],
                 []⟩ :=
    by apply SeqStep.load _ 0 ⟨.response ⟨7, "continue"⟩ none true "", 1, 0, 0⟩ <;> rfl
  have s2 : SeqStep
      ⟨0,
                 [⟨.response ⟨7, "continue"⟩ none true "", 1, 1, 0⟩,
                  ⟨.event "stopped" none, 1, 0, 0⟩,
                  ⟨.event "stopped" none, 1, 0, 0⟩,
                  ⟨.response ⟨1, "initialize"⟩ none true "", 2, 0, 0⟩],
                 []⟩
      ⟨0,
                 [⟨.response ⟨7, "continue"⟩ none true "", 1, 1, 0⟩,
                  ⟨.event "stopped" none, 1, 1, 0⟩,
                  ⟨.event "stopped" none, 1, 0, 0⟩,
                  ⟨.response ⟨1, "initialize"⟩ none true "", 2, 0, 0⟩],
                 []⟩ :=
    by apply SeqStep.load _ 1 ⟨.event "stopped" none, 1, 0, 0⟩ <;> rfl
  have s3 : SeqStep
      ⟨0,
                 [⟨.response ⟨7, "continue"⟩ none true "", 1, 1, 0⟩,
                  ⟨.event "stopped" none, 1, 1, 0⟩,
                  ⟨.event "stopped" none, 1, 0, 0⟩,
                  ⟨.response ⟨1, "initialize"⟩ none true "", 2, 0, 0⟩],
                 []⟩
      ⟨1,
                 [⟨.response ⟨7, "continue"⟩ none true "", 1, 1, 0⟩,
                  ⟨.event "stopped" none, 1, 2, 0⟩,
                  ⟨.event "stopped" none, 1, 0, 0⟩,
                  ⟨.response ⟨1, "initialize"⟩ none true "", 2, 0, 0⟩],
                 []⟩ :=
    by apply SeqStep.store _ 1 ⟨.event "stopped" none, 1, 1, 0⟩ <;> rfl
  have s4 : SeqStep
      ⟨1,
                 [⟨.response ⟨7, "continue"⟩ none true "", 1, 1, 0⟩,
                  ⟨.event "stopped" none, 1, 2, 0⟩,
                  ⟨.event "stopped" none, 1, 0, 0⟩,
                  ⟨.response ⟨1, "initialize"⟩ none true "", 2, 0, 0⟩],
                 []⟩
      ⟨1,
                 [⟨.response ⟨7, "continue"⟩ none true "", 1, 1, 0⟩,
                  ⟨.event "stopped" none, 1, 3, 0⟩,
                  ⟨.event "stopped" none, 1, 0, 0⟩,
                  ⟨.response ⟨1, "initialize"⟩ none true "", 2, 0, 0⟩],
                 [(1, sendEnvelope 1 (.event "stopped" none))]⟩ :=
    by apply SeqStep.emit _ 1 ⟨.event "stopped" none, 1, 2, 0⟩ <;> rfl
  have s5 : SeqStep
      ⟨1,
                 [⟨.response ⟨7, "continue"⟩ none true "", 1, 1, 0⟩,
                  ⟨.event "stopped" none, 1, 3, 0⟩,
                  ⟨.event "stopped" none, 1, 0, 0⟩,
                  ⟨.response ⟨1, "initialize"⟩ none true "", 2, 0, 0⟩],
                 [(1, sendEnvelope 1 (.event "stopped" none))]⟩
      ⟨1,
                 [⟨.response ⟨7, "continue"⟩ none true "", 1, 1, 0⟩,
                  ⟨.event "stopped" none, 1, 3, 0⟩,
                  ⟨.event "stopped" none, 1, 1, 1⟩,
                  ⟨.response ⟨1, "initialize"⟩ none true "", 2, 0, 0⟩],
                 [(1, sendEnvelope 1 (.event "stopped" none))]⟩ :=
    by apply SeqStep.load _ 2 ⟨.event "stopped" none, 1, 0, 0⟩ <;> rfl
  have s6 : SeqStep
      ⟨1,
                 [⟨.response ⟨7, "continue"⟩ none true "", 1, 1, 0⟩,
                  ⟨.event "stopped" none, 1, 3, 0⟩,
                  ⟨.event "stopped" none, 1, 1, 1⟩,
                  ⟨.response ⟨1, "initialize"⟩ none true "", 2, 0, 0⟩],
                 [(1, sendEnvelope 1 (.event "stopped" none))]⟩
      ⟨2,
                 [⟨.response ⟨7, "continue"⟩ none true "", 1, 1, 0⟩,
                  ⟨.event "stopped" none, 1, 3, 0⟩,
                  ⟨.event "stopped" none, 1, 2, 1⟩,
                  ⟨.response ⟨1, "initialize"⟩ none true "", 2, 0, 0⟩],
                 [(1, sendEnvelope 1 (.event "stopped" none))]⟩ :=
    by apply SeqStep.store _ 2 ⟨.event "stopped" none, 1, 1, 1⟩ <;> rfl
  have s7 : SeqStep
      ⟨2,
                 [⟨.response ⟨7, "continue"⟩ none true "", 1, 1, 0⟩,
                  ⟨.event "stopped" none, 1, 3, 0⟩,
                  ⟨.event "stopped" none, 1, 2, 1⟩,
                  ⟨.response ⟨1, "initialize"⟩ none true "", 2, 0, 0⟩],
                 [(1, sendEnvelope 1 (.event "stopped" none))]⟩
      ⟨2,
                 [⟨.response ⟨7, "continue"⟩ none true "", 1, 1, 0⟩,
                  ⟨.event "stopped" none, 1, 3, 0⟩,
                  ⟨.event "stopped" none, 1, 3, 1⟩,
                  ⟨.response ⟨1, "initialize"⟩ none true "", 2, 0, 0⟩],
                 [(1, sendEnvelope 1 (.event "stopped" none)),
                  (1, sendEnvelope 2 (.event "stopped" none))]⟩ :=
    by apply SeqStep.emit _ 2 ⟨.event "stopped" none, 1, 2, 1⟩ <;> rfl
  have s8 : SeqStep
      ⟨2,
                 [⟨.response ⟨7, "continue"⟩ none true "", 1, 1, 0⟩,
                  ⟨.event "stopped" none, 1, 3, 0⟩,
                  ⟨.event "stopped" none, 1, 3, 1⟩,
                  ⟨.response ⟨1, "initialize"⟩ none true "", 2, 0, 0⟩],
                 [(1, sendEnvelope 1 (.event "stopped" none)),
                  (1, sendEnvelope 2 (.event "stopped" none))]⟩
      ⟨1,
                 [⟨.response ⟨7, "continue"⟩ none true "", 1, 2, 0⟩,
                  ⟨.event "stopped" none, 1, 3, 0⟩,
                  ⟨.event "stopped" none, 1, 3, 1⟩,
                  ⟨.response ⟨1, "initialize"⟩ none true "", 2, 0, 0⟩],
                 [(1, sendEnvelope 1 (.event "stopped" none)),
                  (1, sendEnvelope 2 (.event "stopped" none))]⟩ :=
    by apply SeqStep.store _ 0 ⟨.response ⟨7, "continue"⟩ none true "", 1, 1, 0⟩ <;> rfl
  have s9 : SeqStep
      ⟨1,
                 [⟨.response ⟨7, "continue"⟩ none true "", 1, 2, 0⟩,
                  ⟨.event "stopped" none, 1, 3, 0⟩,
                  ⟨.event "stopped" none, 1, 3, 1⟩,
                  ⟨.response ⟨1, "initialize"⟩ none true "", 2, 0, 0⟩],
                 [(1, sendEnvelope 1 (.event "stopped" none)),
                  (1, sendEnvelope 2 (.event "stopped" none))]⟩
      ⟨1,
                 [⟨.response ⟨7, "continue"⟩ none true "", 1, 3, 0⟩,
                  ⟨.event "stopped" none, 1, 3, 0⟩,
                  ⟨.event "stopped" none, 1, 3, 1⟩,
                  ⟨.response ⟨1, "initialize"⟩ none true "", 2, 0, 0⟩],
                 [(1, sendEnvelope 1 (.event "stopped" none)),
                  (1, sendEnvelope 2 (.event "stopped" none)),
                  (1, sendEnvelope 1 (.response ⟨7, "continue"⟩ none true ""))]⟩ :=
    by apply SeqStep.emit _ 0 ⟨.response ⟨7, "continue"⟩ none true "", 1, 2, 0⟩ <;> rfl
  have s10 : SeqStep
      ⟨1,
                 [⟨.response ⟨7, "continue"⟩ none true "", 1, 3, 0⟩,
                  ⟨.event "stopped" none, 1, 3, 0⟩,
                  ⟨.event "stopped" none, 1, 3, 1⟩,
                  ⟨.response ⟨1, "initialize"⟩ none true "", 2, 0, 0⟩],
                 [(1, sendEnvelope 1 (.event "stopped" none)),
                  (1, sendEnvelope 2 (.event "stopped" none)),
                  (1, sendEnvelope 1 (.response ⟨7, "continue"⟩ none true ""))]⟩
      ⟨1,
                 [⟨.response ⟨7, "continue"⟩ none true "", 1, 3, 0⟩,
                  ⟨.event "stopped" none, 1, 3, 0⟩,
                  ⟨.event "stopped" none, 1, 3, 1⟩,
                  ⟨.response ⟨1, "initialize"⟩ none true "", 2, 1, 1⟩],
                 [(1, sendEnvelope 1 (.event "stopped" none)),
                  (1, sendEnvelope 2 (.event "stopped" none)),
                  (1, sendEnvelope 1 (.response ⟨7, "continue"⟩ none true ""))]⟩ :=
    by apply SeqStep.load _ 3 ⟨.response ⟨1, "initialize"⟩ none true "", 2, 0, 0⟩ <;> rfl
  have s11 : SeqStep
      ⟨1,
                 [⟨.response ⟨7, "continue"⟩ none true "", 1, 3, 0⟩,
                  ⟨.event "stopped" none, 1, 3, 0⟩,
                  ⟨.event "stopped" none, 1, 3, 1⟩,
                  ⟨.response ⟨1, "initialize"⟩ none true "", 2, 1, 1⟩],
                 [(1, sendEnvelope 1 (.event "stopped" none)),
                  (1, sendEnvelope 2 (.event "stopped" none)),
                  (1, sendEnvelope 1 (.response ⟨7, "continue"⟩ none true ""))]⟩
      ⟨2,
                 [⟨.response ⟨7, "continue"⟩ none true "", 1, 3, 0⟩,
                  ⟨.event "stopped" none, 1, 3, 0⟩,
                  ⟨.event "stopped" none, 1, 3, 1⟩,
                  ⟨.response ⟨1, "initialize"⟩ none true "", 2, 2, 1⟩],
                 [(1, sendEnvelope 1 (.event "stopped" none)),
                  (1, sendEnvelope 2 (.event "stopped" none)),
                  (1, sendEnvelope 1 (.response ⟨7, "continue"⟩ none true ""))]⟩ :=
    by apply SeqStep.store _ 3 ⟨.response ⟨1, "initialize"⟩ none true "", 2, 1, 1⟩ <;> rfl
  have s12 : SeqStep
      ⟨2,
                 [⟨.response ⟨7, "continue"⟩ none true "", 1, 3, 0⟩,
                  ⟨.event "stopped" none, 1, 3, 0⟩,
                  ⟨.event "stopped" none, 1, 3, 1⟩,
                  ⟨.response ⟨1, "initialize"⟩ none true "", 2, 2, 1⟩],
                 [(1, sendEnvelope 1 (.event "stopped" none)),
                  (1, sendEnvelope 2 (.event "stopped" none)),
                  (1, sendEnvelope 1 (.response ⟨7, "continue"⟩ none true ""))]⟩
      ⟨2,
                 [⟨.response ⟨7, "continue"⟩ none true "", 1, 3, 0⟩,
                  ⟨.event "stopped" none, 1, 3, 0⟩,
                  ⟨.event "stopped" none, 1, 3, 1⟩,
                  ⟨.response ⟨1, "initialize"⟩ none true "", 2, 3, 1⟩],
                 [(1, sendEnvelope 1 (.event "stopped" none)),
                  (1, sendEnvelope 2 (.event "stopped" none)),
                  (1, sendEnvelope 1 (.response ⟨7, "continue"⟩ none true "")),
                  (2, sendEnvelope 2 (.response ⟨1, "initialize"⟩ none true ""))]⟩ :=
    by apply SeqStep.emit _ 3 ⟨.response ⟨1, "initialize"⟩ none true "", 2, 2, 1⟩ <;> rfl
  exact SeqReach.step (SeqReach.step (SeqReach.step (SeqReach.step (SeqReach.step (SeqReach.step (SeqReach.step (SeqReach.step (SeqReach.step (SeqReach.step (SeqReach.step (SeqReach.step SeqReach.refl s1) s2) s3) s4) s5) s6) s7) s8) s9) s10) s11) s12

theorem digitChar_toNat (n : Nat) (h : n < 10) : (digitChar n).toNat = 48 + n := by
  interval_cases n <;> decide

theorem hexDigitChar_ascii (n : Nat) (h : n < 16) : (hexDigitChar n).toNat < 128 := by
  interval_cases n <;> decide

theorem hex4Chars_ascii (n : Nat) : ∀ c ∈ hex4Chars n, c.toNat < 128 := by
  intro c hc
  simp only [hex4Chars, List.mem_cons, List.not_mem_nil, or_false] at hc
  rcases hc with rfl | rfl | rfl | rfl <;>
    exact hexDigitChar_ascii _ (Nat.mod_lt _ (by omega))

set_option maxHeartbeats 1000000 in
theorem escapeChar_ascii (c : Char) : ∀ x ∈ escapeChar c, x.toNat < 128 := by
  intro x hx
  unfold escapeChar at hx
  split_ifs at hx with h1 h2 h3 h4 h5 h6 h7 h8 h9 h10
  any_goals simp only [List.mem_cons, List.not_mem_nil, or_false] at hx
  · rcases hx with rfl | rfl <;> decide
  · rcases hx with rfl | rfl <;> decide
  · rcases hx with rfl | rfl <;> decide
  · rcases hx with rfl | rfl <;> decide
  · rcases hx with rfl | rfl <;> decide
  · rcases hx with rfl | rfl <;> decide
  · rcases hx with rfl | rfl <;> decide
  · rcases hx with rfl | rfl | hx
    · decide
    · decide
    · exact hex4Chars_ascii _ x hx
  · subst hx
    omega
  · rcases hx with rfl | rfl | hx
    · decide
    · decide
    · exact hex4Chars_ascii _ x hx
  · rw [List.mem_append] at hx
    rcases hx with hx | hx <;>
      · simp only [List.mem_cons] at hx
        rcases hx with rfl | rfl | hx
        · decide
        · decide
        · exact hex4Chars_ascii _ x hx

theorem strLit_ascii (s : String) : ∀ c ∈ strLit s, c.toNat < 128 := by
  intro c hc
  simp only [strLit, List.mem_cons, List.mem_append, List.not_mem_nil, or_false,
    List.mem_flatMap] at hc
  rcases hc with rfl | ⟨a, -, ha⟩ | rfl
  · decide
  · exact escapeChar_ascii a c ha
  · decide

theorem natCharsAux_ascii : ∀ (fuel n : Nat), ∀ c ∈ natCharsAux fuel n, c.toNat < 128
  | 0, _ => by simp [natCharsAux]
  | fuel + 1, n => by
      intro c hc
      rw [natCharsAux] at hc
      split_ifs at hc with h
      · simp only [List.mem_singleton] at hc
        subst hc
        rw [digitChar_toNat n h]
        omega
      · rw [List.mem_append, List.mem_singleton] at hc
        rcases hc with hc | rfl
        · exact natCharsAux_ascii fuel (n / 10) c hc
        · rw [digitChar_toNat _ (Nat.mod_lt _ (by omega))]
          omega

theorem intChars_ascii (i : Int) : ∀ c ∈ intChars i, c.toNat < 128 := by
  intro c hc
  rw [intChars, List.mem_append] at hc
  rcases hc with hc | hc
  · split_ifs at hc
    · simp only [List.mem_singleton] at hc
      subst hc
      decide
    · simp at hc
  · exact natCharsAux_ascii _ _ c hc

mutual
theorem dumps_ascii : ∀ (v : JVal), ∀ c ∈ dumps v, c.toNat < 128
  | .null, c, hc => by
      simp only [dumps, List.mem_cons, List.not_mem_nil, or_false] at hc
      rcases hc with rfl | rfl | rfl | rfl <;> decide
  | .bool true, c, hc => by
      simp only [dumps, List.mem_cons, List.not_mem_nil, or_false] at hc
      rcases hc with rfl | rfl | rfl | rfl <;> decide
  | .bool false, c, hc => by
      simp only [dumps, List.mem_cons, List.not_mem_nil, or_false] at hc
      rcases hc with rfl | rfl | rfl | rfl | rfl <;> decide
  | .num i, c, hc => intChars_ascii i c hc
  | .str s, c, hc => strLit_ascii s c hc
  | .arr vs, c, hc => by
      simp only [dumps, List.mem_cons, List.mem_append, List.not_mem_nil, or_false] at hc
      rcases hc with rfl | hc | rfl
      · decide
      · exact dumpsElems_ascii vs c hc
      · decide
  | .obj ms, c, hc => by
      simp only [dumps, List.mem_cons, List.mem_append, List.not_mem_nil, or_false] at hc
      rcases hc with rfl | hc | rfl
      · decide
      · exact dumpsMembers_ascii ms c hc
      · decide

theorem dumpsElems_ascii : ∀ (vs : List JVal), ∀ c ∈ dumpsElems vs, c.toNat < 128
  | [], c, hc => by simp [dumpsElems] at hc
  | v :: vs, c, hc => by
      rw [dumpsElems, List.mem_append] at hc
      rcases hc with hc | hc
      · exact dumps_ascii v c hc
      · exact dumpsElemSep_ascii vs c hc

theorem dumpsElemSep_ascii : ∀ (vs : List JVal), ∀ c ∈ dumpsElemSep vs, c.toNat < 128
  | [], c, hc => by simp [dumpsElemSep] at hc
  | v :: vs, c, hc => by
      simp only [dumpsElemSep, List.mem_cons, List.mem_append] at hc
      rcases hc with rfl | rfl | hc | hc
      · decide
      · decide
      · exact dumps_ascii v c hc
      · exact dumpsElemSep_ascii vs c hc

theorem dumpsMembers_ascii : ∀ (ms : List (String × JVal)), ∀ c ∈ dumpsMembers ms, c.toNat < 128
  | [], c, hc => by simp [dumpsMembers] at hc
  | (k, v) :: ms, c, hc => by
      simp only [dumpsMembers, List.mem_append, List.mem_cons] at hc
      rcases hc with hc | rfl | rfl | hc | hc
      · exact strLit_ascii k c hc
      · decide
      · decide
      · exact dumps_ascii v c hc
      · exact dumpsMemberSep_ascii ms c hc

theorem dumpsMemberSep_ascii :
    ∀ (ms : List (String × JVal)), ∀ c ∈ dumpsMemberSep ms, c.toNat < 128
  | [], c, hc => by simp [dumpsMemberSep] at hc
  | (k, v) :: ms, c, hc => by
      simp only [dumpsMemberSep, List.mem_cons, List.mem_append] at hc
      rcases hc with rfl | rfl | hc | rfl | rfl | hc | hc
      · decide
      · decide
      · exact strLit_ascii k c hc
      · decide
      · decide
      · exact dumps_ascii v c hc
      · exact dumpsMemberSep_ascii ms c hc
end

theorem utf8Len_eq_length : ∀ (cs : List Char), (∀ c ∈ cs, c.toNat < 128) →
    utf8Len cs = cs.length
  | [], _ => rfl
  | c :: cs, h => by
      have hc : c.toNat < 0x80 := h c (List.mem_cons_self c cs)
      have ih := utf8Len_eq_length cs (fun x hx => h x (List.mem_cons_of_mem c hx))
      simp only [utf8Len, List.map_cons, List.sum_cons, utf8Size, if_pos hc,
        List.length_cons] at ih ⊢
      omega

theorem allAscii_iff (cs : List Char) : allAscii cs = true ↔ ∀ c ∈ cs, c.toNat < 128 := by
  simp [allAscii, List.all_eq_true]

/-- C2: the frame `send_message` emits is exactly the literal
`Content-Length: `, the decimal digits of `N`, `\r\n\r\n`, then the JSON
body with nothing after it — where `N` equals the UTF-8 byte length of
the body (not merely its character count: the two coincide because the
`ensure_ascii` serializer leaves the body pure ASCII, and the whole
frame is ASCII, so this is also its own UTF-8 encoding byte for byte). -/
theorem encodeFrame_content_length (m : JVal) :
    encodeFrame m = headerLit ++ natChars (utf8Len (dumps m)) ++ crlf2 ++ dumps m ∧
    String.mk headerLit = "Content-Length: " ∧
    String.mk crlf2 = "\r\n\r\n" ∧
    allAscii (encodeFrame m) = true := by
  have hd := dumps_ascii m
  refine ⟨?_, rfl, rfl, ?_⟩
  · rw [utf8Len_eq_length (dumps m) hd]
    rfl
  · rw [allAscii_iff]
    have hh : ∀ x ∈ headerLit, x.toNat < 128 := by decide
    have hcr : ∀ x ∈ crlf2, x.toNat < 128 := by decide
    intro c hc
    simp only [encodeFrame, List.mem_append] at hc
    rcases hc with ((hc | hc) | hc) | hc
    · exact hh c hc
    · exact natCharsAux_ascii _ _ c hc
    · exact hcr c hc
    · exact hd c hc

/-! ### Decimal digits: `natChars` / `takeDigitRun` / `digitsToNat` -/

theorem natCharsAux_eq (n : Nat) : ∀ fuel, n < fuel → natCharsAux fuel n = natChars n := by
  induction n using Nat.strong_induction_on with
  | _ n ih =>
    intro fuel hf
    match fuel with
    | fuel + 1 =>
      by_cases h10 : n < 10
      · rw [natCharsAux, if_pos h10, natChars, natCharsAux, if_pos h10]
      · rw [natCharsAux, if_neg h10, natChars, natCharsAux, if_neg h10]
        have hlt : n / 10 < n := Nat.div_lt_self (by omega) (by omega)
        rw [ih (n / 10) hlt fuel (by omega), ih (n / 10) hlt n (by omega)]

theorem natChars_unfold (n : Nat) :
    natChars n = if n < 10 then [digitChar n] else natChars (n / 10) ++ [digitChar (n % 10)] := by
  by_cases h10 : n < 10
  · rw [natChars, natCharsAux, if_pos h10, if_pos h10]
  · rw [natChars, natCharsAux, if_neg h10, if_neg h10,
      natCharsAux_eq (n / 10) n (by omega)]

theorem isDigitChar_digitChar (n : Nat) (h : n < 10) : isDigitChar (digitChar n) = true := by
  interval_cases n <;> decide

theorem natChars_digits (n : Nat) : ∀ c ∈ natChars n, isDigitChar c = true := by
  induction n using Nat.strong_induction_on with
  | _ n ih =>
    intro c hc
    rw [natChars_unfold] at hc
    by_cases h10 : n < 10
    · rw [if_pos h10, List.mem_singleton] at hc
      subst hc
      exact isDigitChar_digitChar n h10
    · rw [if_neg h10, List.mem_append, List.mem_singleton] at hc
      rcases hc with hc | rfl
      · exact ih (n / 10) (Nat.div_lt_self (by omega) (by omega)) c hc
      · exact isDigitChar_digitChar _ (Nat.mod_lt _ (by omega))

theorem natChars_ne_nil (n : Nat) : natChars n ≠ [] := by
  rw [natChars_unfold]
  split_ifs <;> simp

theorem natChars_head (n : Nat) :
    ∃ c t, natChars n = c :: t ∧ isDigitChar c = true := by
  match h : natChars n with
  | [] => exact absurd h (natChars_ne_nil n)
  | c :: t => exact ⟨c, t, rfl, natChars_digits n c (h ▸ List.mem_cons_self c t)⟩

theorem takeDigitRun_boundary {rest : List Char} (h : digitBoundary rest = true) :
    takeDigitRun rest = ([], rest) := by
  match rest with
  | [] => rfl
  | c :: t =>
      simp only [digitBoundary, Bool.not_eq_true'] at h
      simp [takeDigitRun, h]

theorem takeDigitRun_append (ds : List Char) (hds : ∀ c ∈ ds, isDigitChar c = true)
    (rest : List Char) (hrest : digitBoundary rest = true) :
    takeDigitRun (ds ++ rest) = (ds, rest) := by
  induction ds with
  | nil => simpa using takeDigitRun_boundary hrest
  | cons c t ih =>
      have hc := hds c (List.mem_cons_self c t)
      have ht := ih (fun x hx => hds x (List.mem_cons_of_mem c hx))
      simp [takeDigitRun, hc, ht]

theorem digitChar_val (n : Nat) (h : n < 10) : (digitChar n).toNat - 48 = n := by
  rw [digitChar_toNat n h]
  omega

theorem digitsToNat_natChars (n : Nat) : digitsToNat (natChars n) = n := by
  induction n using Nat.strong_induction_on with
  | _ n ih =>
    rw [natChars_unfold]
    by_cases h10 : n < 10
    · rw [if_pos h10]
      simp only [digitsToNat, List.foldl_cons, List.foldl_nil]
      rw [Nat.zero_mul, Nat.zero_add, digitChar_val n h10]
    · rw [if_neg h10]
      simp only [digitsToNat, List.foldl_append, List.foldl_cons, List.foldl_nil]
      have := ih (n / 10) (Nat.div_lt_self (by omega) (by omega))
      rw [digitsToNat] at this
      rw [this, digitChar_val _ (Nat.mod_lt _ (by omega))]
      omega

theorem digitBoundary_not_digit {c : Char} (h : isDigitChar c = false) (t : List Char) :
    digitBoundary (c :: t) = true := by
  simp [digitBoundary, h]

theorem isDigitChar_no_minus {c : Char} (h : isDigitChar c = true) : c ≠ '-' := by
  intro he
  rw [he] at h
  exact absurd h (by decide)

theorem parseInt_intChars (i : Int) (rest : List Char) (hrest : digitBoundary rest = true) :
    parseInt (intChars i ++ rest) = some (i, rest) := by
  by_cases hi : i < 0
  · have harg : intChars i ++ rest = '-' :: (natChars i.natAbs ++ rest) := by
      simp [intChars, hi]
    rw [harg, parseInt, if_pos rfl,
      takeDigitRun_append _ (natChars_digits _) rest hrest]
    obtain ⟨c, t, hct, -⟩ := natChars_head i.natAbs
    rw [hct]
    simp only []
    rw [← hct, digitsToNat_natChars]
    have : -(i.natAbs : Int) = i := by omega
    rw [this]
  · obtain ⟨c, t, hct, hcd⟩ := natChars_head i.natAbs
    have harg : intChars i ++ rest = c :: (t ++ rest) := by
      simp [intChars, hi, hct]
    rw [harg, parseInt, if_neg (isDigitChar_no_minus hcd)]
    have htd : takeDigitRun (c :: (t ++ rest)) = (c :: t, rest) := by
      have := takeDigitRun_append (natChars i.natAbs) (natChars_digits _) rest hrest
      rwa [hct, List.cons_append] at this
    rw [htd]
    have hdn : digitsToNat (c :: t) = i.natAbs := by
      have := digitsToNat_natChars i.natAbs
      rwa [hct] at this
    simp only [hdn]
    have : (i.natAbs : Int) = i := by omega
    rw [this]

/-! ### String escapes: `parseStrBody` inverts `escapeChar` -/

theorem char_valid_toNat (c : Char) :
    c.toNat < 0xd800 ∨ (0xe000 ≤ c.toNat ∧ c.toNat < 0x110000) := by
  rcases c.valid with h | ⟨h1, h2⟩
  · left
    exact_mod_cast h
  · right
    exact ⟨by exact_mod_cast h1, by exact_mod_cast h2⟩

theorem hexVal_hexDigitChar (n : Nat) (h : n < 16) : hexVal (hexDigitChar n) = some n := by
  interval_cases n <;> decide

theorem hex4Val_hex4Chars (n : Nat) (h : n < 0x10000) :
    hex4Val (hexDigitChar (n / 4096 % 16)) (hexDigitChar (n / 256 % 16))
      (hexDigitChar (n / 16 % 16)) (hexDigitChar (n % 16)) = some n := by
  have h16 : ∀ k : Nat, k % 16 < 16 := fun k => Nat.mod_lt _ (by omega)
  simp only [hex4Val, hexVal_hexDigitChar _ (h16 _)]
  have harith : ((n / 4096 % 16 * 16 + n / 256 % 16) * 16 + n / 16 % 16) * 16 + n % 16 = n := by
    omega
  rw [harith]

theorem unescapeOne_u_known (a b c2 d : Char) (rest : List Char) (n : Nat)
    (hhex : hex4Val a b c2 d = some n)
    (hn1 : ¬(0xd800 ≤ n ∧ n < 0xdc00)) (hn2 : ¬(0xdc00 ≤ n ∧ n < 0xe000)) :
    unescapeOne ('u' :: a :: b :: c2 :: d :: rest) = some (Char.ofNat n, rest) := by
  simp only [unescapeOne, hhex]
  rw [if_neg hn1, if_neg hn2]

theorem unescapeOne_pair_known (a b c2 d a2 b2 c3 d2 : Char) (rest : List Char) (n m : Nat)
    (hhex1 : hex4Val a b c2 d = some n) (hhex2 : hex4Val a2 b2 c3 d2 = some m)
    (hn : 0xd800 ≤ n ∧ n < 0xdc00) (hm : 0xdc00 ≤ m ∧ m < 0xe000) :
    unescapeOne ('u' :: a :: b :: c2 :: d :: '\\' :: 'u' :: a2 :: b2 :: c3 :: d2 :: rest) =
      some (Char.ofNat (0x10000 + (n - 0xd800) * 0x400 + (m - 0xdc00)), rest) := by
  simp only [unescapeOne, hhex1, hhex2]
  rw [if_pos hn, if_pos hm]

theorem parseStrBody_step_escape (fuel : Nat) (acc rest : List Char) (ch : Char)
    (rest2 : List Char) (h : unescapeOne rest = some (ch, rest2)) :
    parseStrBody (fuel + 1) acc ('\\' :: rest) = parseStrBody fuel (ch :: acc) rest2 := by
  conv_lhs => rw [parseStrBody.eq_def]
  simp only [h]
  simp

theorem parseStrBody_step_lit (fuel : Nat) (acc rest : List Char) (c : Char)
    (h1 : ¬(c = '"')) (h2 : ¬(c = '\\')) (h3 : ¬(c.toNat < 0x20)) :
    parseStrBody (fuel + 1) acc (c :: rest) = parseStrBody fuel (c :: acc) rest := by
  conv_lhs => rw [parseStrBody.eq_def]
  simp only [if_neg h1, if_neg h2, if_neg h3]

theorem parseStrBody_step_quote (fuel : Nat) (acc rest : List Char) :
    parseStrBody (fuel + 1) acc ('"' :: rest) = some (String.mk acc.reverse, rest) := by
  conv_lhs => rw [parseStrBody.eq_def]
  simp

set_option maxHeartbeats 2000000 in
theorem parseStrBody_escape (c : Char) (fuel : Nat) (acc rest : List Char) :
    parseStrBody (fuel + 1) acc (escapeChar c ++ rest) = parseStrBody fuel (c :: acc) rest := by
  unfold escapeChar
  split_ifs with h1 h2 h3 h4 h5 h6 h7 h8 h9 h10
  · subst h1
    exact parseStrBody_step_escape fuel acc _ _ _ rfl
  · subst h2
    exact parseStrBody_step_escape fuel acc _ _ _ rfl
  · subst h3
    exact parseStrBody_step_escape fuel acc _ _ _ rfl
  · subst h4
    exact parseStrBody_step_escape fuel acc _ _ _ rfl
  · subst h5
    exact parseStrBody_step_escape fuel acc _ _ _ rfl
  · subst h6
    exact parseStrBody_step_escape fuel acc _ _ _ rfl
  · subst h7
    exact parseStrBody_step_escape fuel acc _ _ _ rfl
  · -- control character, one \uXXXX escape
    have hlt2 : c.toNat < 0x10000 := by omega
    have hu : unescapeOne ('u' :: hexDigitChar (c.toNat / 4096 % 16) ::
        hexDigitChar (c.toNat / 256 % 16) :: hexDigitChar (c.toNat / 16 % 16) ::
        hexDigitChar (c.toNat % 16) :: rest) = some (c, rest) := by
      rw [unescapeOne_u_known _ _ _ _ _ _ (hex4Val_hex4Chars c.toNat hlt2)
        (by omega) (by omega), Char.ofNat_toNat]
    exact parseStrBody_step_escape fuel acc _ _ _ hu
  · -- printable ASCII, emitted verbatim
    exact parseStrBody_step_lit fuel acc rest c h1 h2 (by omega)
  · -- basic-multilingual-plane character, one \uXXXX escape
    have hval := char_valid_toNat c
    have hu : unescapeOne ('u' :: hexDigitChar (c.toNat / 4096 % 16) ::
        hexDigitChar (c.toNat / 256 % 16) :: hexDigitChar (c.toNat / 16 % 16) ::
        hexDigitChar (c.toNat % 16) :: rest) = some (c, rest) := by
      rw [unescapeOne_u_known _ _ _ _ _ _ (hex4Val_hex4Chars c.toNat h10)
        (by omega) (by omega), Char.ofNat_toNat]
    exact parseStrBody_step_escape fuel acc _ _ _ hu
  · -- beyond the BMP: surrogate pair of \uXXXX escapes
    have hval := char_valid_toNat c
    have hcv : c.toNat < 0x110000 := by omega
    have hmod := Nat.mod_lt (c.toNat - 0x10000) (y := 0x400) (by omega)
    have hhi : 0xd800 + (c.toNat - 0x10000) / 0x400 < 0x10000 := by omega
    have hlo : 0xdc00 + (c.toNat - 0x10000) % 0x400 < 0x10000 := by omega
    have hpair := unescapeOne_pair_known _ _ _ _ _ _ _ _ rest _ _
      (hex4Val_hex4Chars _ hhi) (hex4Val_hex4Chars _ hlo)
      (by omega) (by constructor <;> omega)
    have harith : 0x10000 + (0xd800 + (c.toNat - 0x10000) / 0x400 - 0xd800) * 0x400 +
        (0xdc00 + (c.toNat - 0x10000) % 0x400 - 0xdc00) = c.toNat := by omega
    rw [harith, Char.ofNat_toNat] at hpair
    exact parseStrBody_step_escape fuel acc _ _ _ hpair

theorem parseStrBody_flatMap : ∀ (cs : List Char) (fuel : Nat) (acc rest : List Char),
    cs.length < fuel →
    parseStrBody fuel acc (cs.flatMap escapeChar ++ '"' :: rest) =
      some (String.mk (acc.reverse ++ cs), rest)
  | [], fuel, acc, rest, hf => by
      match fuel, hf with
      | fuel + 1, _ =>
        rw [List.flatMap_nil, List.nil_append, parseStrBody_step_quote]
        simp
  | c :: cs, fuel, acc, rest, hf => by
      match fuel, hf with
      | fuel + 1, hf =>
        rw [List.flatMap_cons, List.append_assoc, parseStrBody_escape,
          parseStrBody_flatMap cs fuel (c :: acc) rest (by simpa using Nat.lt_of_succ_lt_succ hf)]
        simp

set_option maxHeartbeats 1000000 in
theorem escapeChar_length_pos (c : Char) : 1 ≤ (escapeChar c).length := by
  unfold escapeChar
  split_ifs <;> simp [hex4Chars]

theorem flatMap_escapeChar_length (cs : List Char) :
    cs.length ≤ (cs.flatMap escapeChar).length := by
  induction cs with
  | nil => simp
  | cons c cs ih =>
      rw [List.flatMap_cons, List.length_append, List.length_cons]
      have := escapeChar_length_pos c
      omega

theorem parseStrBody_strLit (s : String) (rest : List Char) (fuel : Nat)
    (hf : s.data.length < fuel) :
    parseStrBody fuel [] (s.data.flatMap escapeChar ++ '"' :: rest) = some (s, rest) := by
  rw [parseStrBody_flatMap s.data fuel [] rest hf]
  rfl

/-! ### Character classification and whitespace facts -/

theorem digitChar_facts {c : Char} (h : isDigitChar c = true) :
    isJsonWs c = false ∧ c ≠ ']' ∧ c ≠ '}' ∧ c ≠ 'n' ∧ c ≠ 't' ∧ c ≠ 'f' ∧
    c ≠ '"' ∧ c ≠ '[' ∧ c ≠ '{' := by
  simp only [isDigitChar, Bool.and_eq_true, decide_eq_true_eq] at h
  refine ⟨?_, ?_, ?_, ?_, ?_, ?_, ?_, ?_, ?_⟩
  · simp only [isJsonWs, Bool.or_eq_false_iff, decide_eq_false_iff_not]
    refine ⟨⟨⟨?_, ?_⟩, ?_⟩, ?_⟩ <;> (intro he; rw [he] at h; revert h; decide)
  all_goals (intro he; rw [he] at h; revert h; decide)

theorem skipWs_not_ws {c : Char} (h : isJsonWs c = false) (t : List Char) :
    skipWs (c :: t) = c :: t := by
  simp [skipWs, h]

theorem dumps_head (v : JVal) :
    ∃ c t, dumps v = c :: t ∧ isJsonWs c = false ∧ c ≠ ']' ∧ c ≠ '}' := by
  cases v with
  | num i =>
      by_cases hi : i < 0
      · refine ⟨'-', natChars i.natAbs, ?_, ?_⟩
        · simp [dumps, intChars, hi]
        · decide
      · obtain ⟨c, t, hct, hcd⟩ := natChars_head i.natAbs
        obtain ⟨hws, hbr, hbc, -⟩ := digitChar_facts hcd
        refine ⟨c, t, ?_, hws, hbr, hbc⟩
        simp [dumps, intChars, hi, hct]
  | bool b =>
      cases b
      · refine ⟨'f', _, rfl, ?_⟩
        decide
      · refine ⟨'t', _, rfl, ?_⟩
        decide
  | null =>
      refine ⟨'n', _, rfl, ?_⟩
      decide
  | str s =>
      refine ⟨'"', _, rfl, ?_⟩
      decide
  | arr vs =>
      refine ⟨'[', _, rfl, ?_⟩
      decide
  | obj ms =>
      refine ⟨'{', _, rfl, ?_⟩
      decide

theorem skipWs_dumps (v : JVal) (x : List Char) :
    skipWs (dumps v ++ x) = dumps v ++ x := by
  obtain ⟨c, t, hct, hws, -, -⟩ := dumps_head v
  rw [hct, List.cons_append, skipWs_not_ws hws]

/-! ### Space absorption: a single blank before a value or member list -/

theorem parseVal_space : ∀ (fuel : Nat) (x : List Char),
    parseVal fuel (' ' :: x) = parseVal fuel x
  | 0, _ => rfl
  | _ + 1, _ => rfl

theorem parseElems_space : ∀ (fuel : Nat) (x : List Char),
    parseElems fuel (' ' :: x) = parseElems fuel x
  | 0, _ => rfl
  | fuel + 1, x => by
      conv_lhs => rw [parseElems.eq_def]
      conv_rhs => rw [parseElems.eq_def]
      simp only [parseVal_space]

theorem parseMembers_space : ∀ (fuel : Nat) (x : List Char),
    parseMembers fuel (' ' :: x) = parseMembers fuel x
  | 0, _ => rfl
  | _ + 1, _ => rfl

/-! ### The round trip: `parseVal` inverts `dumps` -/

theorem parseVal_arr_step (fuel : Nat) (c2 : Char) (r2 : List Char) (res : List JVal × List Char)
    (h2 : ¬(c2 = ']')) (hws : isJsonWs c2 = false)
    (hpe : parseElems fuel (c2 :: r2) = some res) :
    parseVal (fuel + 1) ('[' :: c2 :: r2) = some (.arr res.1, res.2) := by
  conv_lhs => rw [parseVal.eq_def]
  simp only [skipWs_not_ws (show isJsonWs '[' = false from by decide),
    skipWs_not_ws hws, if_neg h2, hpe]
  simp

theorem parseVal_obj_step (fuel : Nat) (c2 : Char) (r2 : List Char)
    (res : List (String × JVal) × List Char)
    (h2 : ¬(c2 = '}')) (hws : isJsonWs c2 = false)
    (hpm : parseMembers fuel (c2 :: r2) = some res) :
    parseVal (fuel + 1) ('{' :: c2 :: r2) = some (.obj res.1, res.2) := by
  conv_lhs => rw [parseVal.eq_def]
  simp only [skipWs_not_ws (show isJsonWs '{' = false from by decide),
    skipWs_not_ws hws, if_neg h2, hpm]
  simp

mutual
theorem rt_val : ∀ (v : JVal) (fuel : Nat) (rest : List Char),
    (dumps v).length < fuel → digitBoundary rest = true →
    parseVal fuel (dumps v ++ rest) = some (v, rest)
  | .null, fuel, rest, hf, _ => by
      match fuel, hf with
      | fuel + 1, _ =>
        conv_lhs => rw [parseVal.eq_def]
        simp [dumps, skipWs, isJsonWs]
  | .bool true, fuel, rest, hf, _ => by
      match fuel, hf with
      | fuel + 1, _ =>
        conv_lhs => rw [parseVal.eq_def]
        simp [dumps, skipWs, isJsonWs]
  | .bool false, fuel, rest, hf, _ => by
      match fuel, hf with
      | fuel + 1, _ =>
        conv_lhs => rw [parseVal.eq_def]
        simp [dumps, skipWs, isJsonWs]
  | .num i, fuel, rest, hf, hb => by
      match fuel, hf with
      | fuel + 1, _ =>
        by_cases hi : i < 0
        · have harg : dumps (.num i) ++ rest = '-' :: (natChars i.natAbs ++ rest) := by
            simp [dumps, intChars, hi]
          have hpi : parseInt ('-' :: (natChars i.natAbs ++ rest)) = some (i, rest) := by
            have h0 := parseInt_intChars i rest hb
            rwa [show intChars i ++ rest = '-' :: (natChars i.natAbs ++ rest) from
              by simp [intChars, hi]] at h0
          rw [harg]
          conv_lhs => rw [parseVal.eq_def]
          simp only [skipWs_not_ws (show isJsonWs '-' = false from by decide), hpi]
          simp
        · obtain ⟨c, t, hct, hcd⟩ := natChars_head i.natAbs
          obtain ⟨hws, -, -, hn, hb2, hf2, hq, hlb, hlc⟩ := digitChar_facts hcd
          have harg : dumps (.num i) ++ rest = c :: (t ++ rest) := by
            simp [dumps, intChars, hi, hct]
          have hpi : parseInt (c :: (t ++ rest)) = some (i, rest) := by
            have h0 := parseInt_intChars i rest hb
            rwa [show intChars i ++ rest = c :: (t ++ rest) from
              by simp [intChars, hi, hct]] at h0
          rw [harg]
          conv_lhs => rw [parseVal.eq_def]
          simp only [skipWs_not_ws hws, if_neg hn, if_neg hb2, if_neg hf2, if_neg hq,
            if_neg hlb, if_neg hlc, if_pos (Or.inr hcd), hpi]
  | .str s, fuel, rest, hf, _ => by
      match fuel, hf with
      | fuel + 1, _ =>
        have harg : dumps (.str s) ++ rest =
            '"' :: (s.data.flatMap escapeChar ++ '"' :: rest) := by
          simp [dumps, strLit]
        have hlen : s.data.length < (s.data.flatMap escapeChar ++ '"' :: rest).length + 1 := by
          have h1 := flatMap_escapeChar_length s.data
          rw [List.length_append]
          omega
        have hstr := parseStrBody_strLit s rest _ hlen
        rw [harg]
        conv_lhs => rw [parseVal.eq_def]
        simp only [skipWs_not_ws (show isJsonWs '"' = false from by decide), hstr]
        simp
  | .arr [], fuel, rest, hf, _ => by
      match fuel, hf with
      | fuel + 1, _ =>
        conv_lhs => rw [parseVal.eq_def]
        simp [dumps, dumpsElems, skipWs, isJsonWs]
  | .arr (v :: vs), fuel, rest, hf, _ => by
      match fuel, hf with
      | fuel + 1, hf =>
        have harg : dumps (.arr (v :: vs)) ++ rest =
            '[' :: (dumpsElems (v :: vs) ++ ']' :: rest) := by
          simp [dumps]
        obtain ⟨c, t, hct, hws, hbr, -⟩ := dumps_head v
        have hr : dumpsElems (v :: vs) ++ ']' :: rest =
            c :: (t ++ dumpsElemSep vs ++ ']' :: rest) := by
          simp [dumpsElems, hct]
        have hfe : (dumpsElems (v :: vs)).length + 1 < fuel := by
          rw [show dumps (.arr (v :: vs)) = '[' :: (dumpsElems (v :: vs) ++ [']']) from rfl]
            at hf
          simp only [List.length_cons, List.length_append, List.length_singleton] at hf
          omega
        have helems := rt_elems v vs fuel rest hfe
        rw [hr] at helems
        rw [harg, hr]
        exact parseVal_arr_step fuel c (t ++ dumpsElemSep vs ++ ']' :: rest)
          (v :: vs, rest) hbr hws helems
  | .obj [], fuel, rest, hf, _ => by
      match fuel, hf with
      | fuel + 1, _ =>
        conv_lhs => rw [parseVal.eq_def]
        simp [dumps, dumpsMembers, skipWs, isJsonWs]
  | .obj ((k, v) :: kvs), fuel, rest, hf, _ => by
      match fuel, hf with
      | fuel + 1, hf =>
        have harg : dumps (.obj ((k, v) :: kvs)) ++ rest =
            '{' :: (dumpsMembers ((k, v) :: kvs) ++ '}' :: rest) := by
          simp [dumps]
        have hr : dumpsMembers ((k, v) :: kvs) ++ '}' :: rest =
            '"' :: (k.data.flatMap escapeChar ++
              ('"' :: ':' :: ' ' :: (dumps v ++ dumpsMemberSep kvs) ++ '}' :: rest)) := by
          simp [dumpsMembers, strLit]
        have hfm : (dumpsMembers ((k, v) :: kvs)).length + 1 < fuel := by
          rw [show dumps (.obj ((k, v) :: kvs)) =
              '{' :: (dumpsMembers ((k, v) :: kvs) ++ ['}']) from rfl] at hf
          simp only [List.length_cons, List.length_append, List.length_singleton] at hf
          omega
        have hmembers := rt_members (k, v) kvs fuel rest hfm
        rw [hr] at hmembers
        rw [harg, hr]
        exact parseVal_obj_step fuel '"'
          (k.data.flatMap escapeChar ++
            ('"' :: ':' :: ' ' :: (dumps v ++ dumpsMemberSep kvs) ++ '}' :: rest))
          ((k, v) :: kvs, rest) (by decide) (by decide) hmembers
  termination_by v _ _ _ _ => sizeOf v

theorem rt_elems : ∀ (v : JVal) (vs : List JVal) (fuel : Nat) (rest : List Char),
    (dumpsElems (v :: vs)).length + 1 < fuel →
    parseElems fuel (dumpsElems (v :: vs) ++ ']' :: rest) = some (v :: vs, rest)
  | v, [], fuel, rest, hf => by
      match fuel, hf with
      | fuel + 1, hf =>
        have harg : dumpsElems [v] ++ ']' :: rest = dumps v ++ ']' :: rest := by
          simp [dumpsElems, dumpsElemSep]
        have hfe : (dumps v).length < fuel := by
          simp only [dumpsElems, dumpsElemSep, List.append_nil, List.length_cons] at hf
          omega
        have hv := rt_val v fuel (']' :: rest) hfe rfl
        rw [harg]
        conv_lhs => rw [parseElems.eq_def]
        simp only [hv, skipWs_not_ws (show isJsonWs ']' = false from by decide)]
        simp
  | v, w :: ws, fuel, rest, hf => by
      match fuel, hf with
      | fuel + 1, hf =>
        have harg : dumpsElems (v :: w :: ws) ++ ']' :: rest =
            dumps v ++ (',' :: ' ' :: (dumpsElems (w :: ws) ++ ']' :: rest)) := by
          simp [dumpsElems, dumpsElemSep]
        have hlen : (dumpsElems (v :: w :: ws)).length =
            (dumps v).length + 2 + (dumpsElems (w :: ws)).length := by
          simp only [dumpsElems, dumpsElemSep, List.length_append, List.length_cons]
          omega
        have hfe : (dumps v).length < fuel := by omega
        have hv := rt_val v fuel (',' :: ' ' :: (dumpsElems (w :: ws) ++ ']' :: rest)) hfe rfl
        have hrec := rt_elems w ws fuel rest (by omega)
        rw [harg]
        conv_lhs => rw [parseElems.eq_def]
        simp only [hv, skipWs_not_ws (show isJsonWs ',' = false from by decide),
          parseElems_space, hrec]
        simp
  termination_by v vs _ _ _ => sizeOf v + sizeOf vs

theorem rt_members : ∀ (kv : String × JVal) (kvs : List (String × JVal)) (fuel : Nat)
    (rest : List Char),
    (dumpsMembers (kv :: kvs)).length + 1 < fuel →
    parseMembers fuel (dumpsMembers (kv :: kvs) ++ '}' :: rest) = some (kv :: kvs, rest)
  | (k, v), [], fuel, rest, hf => by
      match fuel, hf with
      | fuel + 1, hf =>
        have harg : dumpsMembers [(k, v)] ++ '}' :: rest =
            '"' :: (k.data.flatMap escapeChar ++
              '"' :: (':' :: ' ' :: (dumps v ++ '}' :: rest))) := by
          simp [dumpsMembers, dumpsMemberSep, strLit]
        have hkey : parseStrBody
            ((k.data.flatMap escapeChar ++
              '"' :: (':' :: ' ' :: (dumps v ++ '}' :: rest))).length + 1)
            [] (k.data.flatMap escapeChar ++
              '"' :: (':' :: ' ' :: (dumps v ++ '}' :: rest))) =
            some (k, ':' :: ' ' :: (dumps v ++ '}' :: rest)) := by
          apply parseStrBody_strLit
          have h1 := flatMap_escapeChar_length k.data
          rw [List.length_append]
          omega
        have hfv : (dumps v).length < fuel := by
          simp only [dumpsMembers, dumpsMemberSep, strLit, List.append_nil, List.length_cons,
            List.length_append] at hf
          omega
        have hv := rt_val v fuel ('}' :: rest) hfv rfl
        rw [harg]
        conv_lhs => rw [parseMembers.eq_def]
        simp only [skipWs_not_ws (show isJsonWs '"' = false from by decide), hkey,
          skipWs_not_ws (show isJsonWs ':' = false from by decide), parseVal_space, hv,
          skipWs_not_ws (show isJsonWs '}' = false from by decide)]
        simp
  | (k, v), kv2 :: kvs2, fuel, rest, hf => by
      match fuel, hf with
      | fuel + 1, hf =>
        have harg : dumpsMembers ((k, v) :: kv2 :: kvs2) ++ '}' :: rest =
            '"' :: (k.data.flatMap escapeChar ++
              '"' :: (':' :: ' ' :: (dumps v ++
                (',' :: ' ' :: (dumpsMembers (kv2 :: kvs2) ++ '}' :: rest))))) := by
          obtain ⟨k2, v2⟩ := kv2
          simp [dumpsMembers, dumpsMemberSep, strLit]
        have hkey : parseStrBody
            ((k.data.flatMap escapeChar ++
              '"' :: (':' :: ' ' :: (dumps v ++
                (',' :: ' ' :: (dumpsMembers (kv2 :: kvs2) ++ '}' :: rest))))).length + 1)
            [] (k.data.flatMap escapeChar ++
              '"' :: (':' :: ' ' :: (dumps v ++
                (',' :: ' ' :: (dumpsMembers (kv2 :: kvs2) ++ '}' :: rest))))) =
            some (k, ':' :: ' ' :: (dumps v ++
              (',' :: ' ' :: (dumpsMembers (kv2 :: kvs2) ++ '}' :: rest)))) := by
          apply parseStrBody_strLit
          have h1 := flatMap_escapeChar_length k.data
          rw [List.length_append]
          omega
        have hlen2 : (dumpsMembers ((k, v) :: kv2 :: kvs2)).length =
            (strLit k).length + 2 + (dumps v).length + 2 +
              (dumpsMembers (kv2 :: kvs2)).length := by
          obtain ⟨k2, v2⟩ := kv2
          simp only [dumpsMembers, dumpsMemberSep, List.length_append, List.length_cons]
          omega
        have hfv : (dumps v).length < fuel := by omega
        have hv := rt_val v fuel
          (',' :: ' ' :: (dumpsMembers (kv2 :: kvs2) ++ '}' :: rest)) hfv rfl
        have hrec := rt_members kv2 kvs2 fuel rest (by omega)
        rw [harg]
        conv_lhs => rw [parseMembers.eq_def]
        simp only [skipWs_not_ws (show isJsonWs '"' = false from by decide), hkey,
          skipWs_not_ws (show isJsonWs ':' = false from by decide), parseVal_space, hv,
          skipWs_not_ws (show isJsonWs ',' = false from by decide),
          parseMembers_space, hrec]
        simp
  termination_by kv kvs _ _ _ => sizeOf kv + sizeOf kvs
end

theorem loads_dumps (m : JVal) : loads (dumps m) = some m := by
  have h := rt_val m ((dumps m).length + 1) [] (by omega) rfl
  rw [List.append_nil] at h
  simp only [loads, h]
  simp [skipWs]

/-! ### Framing: `tryFrame` on complete frames and on strict prefixes -/

theorem dropLit_append : ∀ (l rest : List Char), dropLit l (l ++ rest) = some rest
  | [], _ => rfl
  | c :: ls, rest => by simp [dropLit, dropLit_append ls rest]

theorem dropLit_short : ∀ (l p : List Char), p.length < l.length → (∃ q, p ++ q = l) →
    dropLit l p = none
  | [], p, h, _ => by simp at h
  | c :: ls, [], _, _ => rfl
  | c :: ls, p0 :: ps, h, hq => by
      obtain ⟨q, hq⟩ := hq
      rw [List.cons_append, List.cons.injEq] at hq
      obtain ⟨rfl, hq2⟩ := hq
      simp only [dropLit, if_pos rfl]
      exact dropLit_short ls ps (by simpa using Nat.lt_of_succ_lt_succ h) ⟨q, hq2⟩

theorem tryFrame_header (n : Nat) (t : List Char) :
    tryFrame (headerLit ++ (natChars n ++ (crlf2 ++ t))) =
      if t.length < n then none else some (t.take n, t.drop n) := by
  have hb : digitBoundary (crlf2 ++ t) = true := rfl
  have h2 := takeDigitRun_append (natChars n) (natChars_digits n) (crlf2 ++ t) hb
  obtain ⟨c, t2, hct, -⟩ := natChars_head n
  rw [hct] at h2
  simp only [tryFrame, dropLit_append, hct, h2, dropLit_append crlf2 t]
  rw [← hct, digitsToNat_natChars]

theorem dropLit_take_none (l : List Char) (k : Nat) (hk : k < l.length) :
    dropLit l (l.take k) = none := by
  apply dropLit_short
  · rw [List.length_take]; omega
  · exact ⟨l.drop k, List.take_append_drop k l⟩

theorem tryFrame_take_none (n : Nat) (body : List Char) (hn : body.length = n) (k : Nat)
    (hk : k < 16 + ((natChars n).length + (4 + n))) :
    tryFrame ((headerLit ++ (natChars n ++ (crlf2 ++ body))).take k) = none := by
  have hHL : headerLit.length = 16 := rfl
  have hC4 : crlf2.length = 4 := rfl
  rw [List.take_append_eq_append_take, hHL]
  by_cases h16 : k < 16
  · have h0 : k - 16 = 0 := by omega
    rw [h0, List.take_zero, List.append_nil]
    have hd := dropLit_take_none headerLit k (by omega)
    simp only [tryFrame, hd]
  · have h16' : headerLit.take k = headerLit := List.take_of_length_le (by omega)
    rw [h16', List.take_append_eq_append_take]
    by_cases hjd : k - 16 ≤ (natChars n).length
    · have h0 : k - 16 - (natChars n).length = 0 := by omega
      rw [h0, List.take_zero, List.append_nil]
      by_cases hj0 : k - 16 = 0
      · rw [hj0, List.take_zero, List.append_nil]
        rfl
      · have hdig : ∀ c ∈ (natChars n).take (k - 16), isDigitChar c = true :=
          fun c hc => natChars_digits n c (List.mem_of_mem_take hc)
        have hrun : takeDigitRun ((natChars n).take (k - 16)) =
            ((natChars n).take (k - 16), []) := by
          have h := takeDigitRun_append ((natChars n).take (k - 16)) hdig [] rfl
          simpa using h
        have hlen : ((natChars n).take (k - 16)).length = k - 16 := by
          rw [List.length_take]; omega
        have hne : (natChars n).take (k - 16) ≠ [] := by
          intro h
          rw [h] at hlen
          simp at hlen
          omega
        obtain ⟨c, ts, hcts⟩ := List.exists_cons_of_ne_nil hne
        rw [hcts] at hrun ⊢
        have hdl2 : dropLit crlf2 [] = none := rfl
        simp only [tryFrame, dropLit_append, hrun, hdl2]
    · have h16d : (natChars n).take (k - 16) = natChars n :=
        List.take_of_length_le (by omega)
      rw [h16d, List.take_append_eq_append_take, hC4]
      by_cases hi4 : k - 16 - (natChars n).length < 4
      · have h0 : k - 16 - (natChars n).length - 4 = 0 := by omega
        rw [h0, List.take_zero, List.append_nil]
        obtain ⟨i, hji⟩ : ∃ i, k - 16 - (natChars n).length = i + 1 :=
          ⟨k - 16 - (natChars n).length - 1, by omega⟩
        rw [hji]
        have hb : digitBoundary (crlf2.take (i + 1)) = true := by
          simp only [crlf2, List.take_succ_cons, digitBoundary]
          decide
        have hrun := takeDigitRun_append (natChars n) (natChars_digits n)
          (crlf2.take (i + 1)) hb
        have hdl : dropLit crlf2 (crlf2.take (i + 1)) = none :=
          dropLit_take_none crlf2 (i + 1) (by omega)
        obtain ⟨c, t2, hct, -⟩ := natChars_head n
        rw [hct] at hrun
        simp only [tryFrame, dropLit_append, hct, hrun, hdl]
      · have h4 : crlf2.take (k - 16 - (natChars n).length) = crlf2 :=
          List.take_of_length_le (by omega)
        rw [h4, tryFrame_header]
        have hlt : (body.take (k - 16 - (natChars n).length - 4)).length < n := by
          rw [List.length_take]
          omega
        rw [if_pos hlt]

theorem tryFrame_nil : tryFrame [] = none := rfl

theorem drainFrames_stuck (fuel : Nat) (buf : List Char) (h : tryFrame buf = none) :
    drainFrames (fuel + 1) buf = some ([], buf) := by
  simp only [drainFrames, h]

theorem drainFrames_nil (fuel : Nat) : drainFrames fuel [] = some ([], []) := by
  cases fuel with
  | zero => rfl
  | succ f => exact drainFrames_stuck f [] tryFrame_nil

theorem encodeFrame_assoc (m : JVal) :
    encodeFrame m =
      headerLit ++ (natChars (dumps m).length ++ (crlf2 ++ dumps m)) := by
  simp [encodeFrame, List.append_assoc]

theorem tryFrame_encodeFrame (m : JVal) :
    tryFrame (encodeFrame m) = some (dumps m, []) := by
  have h := tryFrame_header (dumps m).length (dumps m)
  rw [if_neg (lt_irrefl _), List.take_length, List.drop_length] at h
  rw [encodeFrame_assoc]
  exact h

theorem drainFrames_encodeFrame (m : JVal) (fuel : Nat) :
    drainFrames (fuel + 1) (encodeFrame m) = some ([m], []) := by
  simp only [drainFrames, tryFrame_encodeFrame, loads_dumps, drainFrames_nil]

theorem encodeFrame_length (m : JVal) :
    (encodeFrame m).length =
      16 + ((natChars (dumps m).length).length + (4 + (dumps m).length)) := by
  simp [encodeFrame, List.length_append, headerLit, crlf2]
  omega

theorem runClient_frame : ∀ (chunks : List (List Char)) (acc : List Char) (m : JVal),
    (∀ ch ∈ chunks, ch ≠ []) → acc ++ chunks.flatten = encodeFrame m →
    chunks ≠ [] → runClient chunks acc = some ([m], [])
  | [], _, _, _, _, hne => absurd rfl hne
  | [ch], acc, m, _, hjoin, _ => by
      have hac : acc ++ ch = encodeFrame m := by simpa using hjoin
      simp only [runClient, hac, drainFrames_encodeFrame, List.append_nil]
  | ch :: ch2 :: chs, acc, m, hne, hjoin, _ => by
      have hflat : (acc ++ ch) ++ ((ch2 :: chs).flatten) = encodeFrame m := by
        simpa [List.append_assoc] using hjoin
      have hne2 : ch2 ≠ [] := hne ch2 (by simp)
      have hpos : 0 < ((ch2 :: chs).flatten).length := by
        cases hcc : ch2 with
        | nil => exact absurd hcc hne2
        | cons a as => simp [hcc]
      have hlt : (acc ++ ch).length < (encodeFrame m).length := by
        have hl := congrArg List.length hflat
        rw [List.length_append] at hl
        omega
      have hpref : acc ++ ch = (encodeFrame m).take (acc ++ ch).length := by
        rw [← hflat, List.take_append_eq_append_take, List.take_length, Nat.sub_self,
          List.take_zero, List.append_nil]
      have hnone : tryFrame (acc ++ ch) = none := by
        rw [hpref, encodeFrame_assoc]
        apply tryFrame_take_none (dumps m).length (dumps m) rfl
        have hEl := encodeFrame_length m
        omega
      have hrec := runClient_frame (ch2 :: chs) (acc ++ ch) m
        (fun c hc => hne c (List.mem_cons_of_mem _ hc)) hflat (by simp)
      conv_lhs => rw [runClient.eq_def]
      simp only [drainFrames_stuck _ _ hnone, hrec, List.nil_append]

theorem encodeFrame_ne_nil (m : JVal) : encodeFrame m ≠ [] := by
  intro h
  have hl := congrArg List.length h
  rw [encodeFrame_length m, List.length_nil] at hl
  omega

/-- **C1.** Framing round trip of `send_message`'s encoder against
`handle_client`'s decoder loop: for every JSON value `m`, feeding the
single chunk `encodeFrame m` to the client loop delivers exactly `m`
and leaves the buffer empty, and feeding `encodeFrame m` split across
arbitrary nonempty chunk boundaries (including one character at a time)
likewise delivers `m` exactly once with an empty final buffer. -/
theorem frame_roundtrip (m : JVal) (chunks : List (List Char))
    (hne : ∀ ch ∈ chunks, ch ≠ []) (hjoin : chunks.flatten = encodeFrame m) :
    runClient [encodeFrame m] [] = some ([m], []) ∧
    runClient chunks [] = some ([m], []) := by
  constructor
  · refine runClient_frame [encodeFrame m] [] m ?_ (by simp) (by simp)
    intro ch hc
    rw [List.mem_singleton] at hc
    subst hc
    exact encodeFrame_ne_nil m
  · refine runClient_frame chunks [] m hne (by simpa using hjoin) ?_
    intro h
    subst h
    exact encodeFrame_ne_nil m hjoin.symm

theorem frame_roundtrip_witness :
    runClient
      [(encodeFrame (JVal.obj [("seq", JVal.num 1)])).take 7,
       (encodeFrame (JVal.obj [("seq", JVal.num 1)])).drop 7] [] =
      some ([JVal.obj [("seq", JVal.num 1)]], []) :=
  (frame_roundtrip (JVal.obj [("seq", JVal.num 1)])
    [(encodeFrame (JVal.obj [("seq", JVal.num 1)])).take 7,
     (encodeFrame (JVal.obj [("seq", JVal.num 1)])).drop 7]
    (by decide) (by decide)).2
